import Mathlib

/-!
# onesecmail: a verification development of `client.go`

The package is a thin HTTP client.  Its code is embedded below as pure
functions.  Everything the package does not own is made explicit:

* the HTTP transport (`Client.HTTPClient`, `http.NewRequest`, `io.Copy`) is an
  input, a function from the request to the outcome of the exchange;
* the verbose-logging hook is a state transformer on an arbitrary state `σ`
  (whatever the hook writes to, which is neither the client nor the target);
  such a hook returns, and a hook that may panic is a `PanickingLog`;
* a run of `doReqURL` either returns or panics (the unchecked type assertion,
  and `req.WithContext` on a nil context); a `Client` is the struct a `*Client`
  that is not nil points to, and a call on a `*Client` that may be nil goes
  through `viaPointer`;
* the JSON decoder is a parameter of `doReqURL` (`Lib.Decode`); `Decode` below
  embeds the one of Go's `encoding/json`, for the three target types of the
  package.

Go strings and byte slices are sequences of bytes; a byte is a `Nat` (below
256).  Closing the response body has no effect on what `doReqURL` returns and
is not represented.
-/

namespace Onesecmail

/-! ## Go values -/

/-- A Go `string`: an immutable sequence of bytes. -/
abbrev GoString := List Nat

/-- A Go slice `[]T`: `none` is the nil slice, `some xs` a non-nil slice. -/
abbrev GoSlice (α : Type) := Option (List α)

/-- The elements of a slice (a nil slice has none). -/
def GoSlice.elems {α : Type} : GoSlice α → List α
  | none => []
  | some xs => xs

/-- UTF-8 encoding of one character, used to write Go string literals. -/
def utf8EncodeChar (c : Char) : List Nat :=
  let n := c.toNat
  if n < 128 then [n]
  else if n < 2048 then [192 + n / 64, 128 + n % 64]
  else if n < 65536 then [224 + n / 4096, 128 + (n / 64) % 64, 128 + n % 64]
  else [240 + n / 262144, 128 + (n / 4096) % 64, 128 + (n / 64) % 64, 128 + n % 64]

/-- A Go string literal. -/
def str (s : String) : GoString :=
  s.toList.flatMap utf8EncodeChar

/-- Result of running Go code that may panic. -/
inductive Exec (α : Type) where
  | panicked : Exec α
  | returned (a : α) : Exec α
  deriving DecidableEq, Repr

/-! ## `strconv.Itoa` -/

/-- Decimal digits of `n`, most significant first, prepended to `acc`. -/
def itoaDigits : Nat → Nat → List Nat → List Nat
  | 0, _, acc => acc
  | fuel + 1, n, acc =>
    if n < 10 then (48 + n) :: acc
    else itoaDigits fuel (n / 10) ((48 + n % 10) :: acc)

/-- Go `strconv.Itoa`: base-10 text of an integer, `-` first when negative. -/
def Itoa (i : Int) : GoString :=
  if i < 0 then 45 :: itoaDigits (i.natAbs + 1) i.natAbs []
  else itoaDigits (i.natAbs + 1) i.natAbs []

/-! ## `net/url`: `QueryEscape` and `Values` -/

/-- Go `url.shouldEscape(c, encodeQueryComponent)`: only ASCII letters, digits
and `-`, `_`, `.`, `~` are left alone. -/
def shouldEscape (c : Nat) : Bool :=
  if (97 ≤ c ∧ c ≤ 122) ∨ (65 ≤ c ∧ c ≤ 90) ∨ (48 ≤ c ∧ c ≤ 57) then false
  else if c = 45 ∨ c = 95 ∨ c = 46 ∨ c = 126 then false
  else true

/-- Go `upperhex[i]` for `i < 16`. -/
def upperhex (i : Nat) : Nat :=
  if i < 10 then 48 + i else 55 + i

/-- Go `url.QueryEscape`: a space becomes `+`, every other byte that must be
escaped becomes `%XX` in upper-case hex. -/
def QueryEscape : GoString → GoString
  | [] => []
  | c :: cs =>
    if c = 32 then 43 :: QueryEscape cs
    else if shouldEscape c then 37 :: upperhex (c / 16 % 16) :: upperhex (c % 16) :: QueryEscape cs
    else c :: QueryEscape cs

/-- Go string comparison `a < b`: lexicographic on bytes. -/
def strLt : GoString → GoString → Bool
  | [], [] => false
  | [], _ :: _ => true
  | _ :: _, [] => false
  | a :: as, b :: bs => if a < b then true else if b < a then false else strLt as bs

/-- Go `url.Values`, a `map[string][]string`, as an association list with
distinct keys. -/
abbrev Values := List (GoString × List GoString)

/-- Go `Values.Set`: the key is bound to the single value, replacing any
earlier binding. -/
def Values.Set : Values → GoString → GoString → Values
  | [], k, v => [(k, [v])]
  | (k0, vs) :: rest, k, v =>
    if k0 = k then (k, [v]) :: rest else (k0, vs) :: Values.Set rest k v

/-- Insertion of a binding into a list of bindings sorted by key. -/
def insertByKey (kv : GoString × List GoString) : Values → Values
  | [] => [kv]
  | x :: xs => if strLt x.1 kv.1 then x :: insertByKey kv xs else kv :: x :: xs

/-- The bindings in ascending key order (`slices.Sort(keys)` in `Encode`). -/
def sortByKey : Values → Values
  | [] => []
  | kv :: rest => insertByKey kv (sortByKey rest)

/-- The text `k=v1&k=v2...` of one key, with `&` in front of every pair but
the very first of the whole output (`first` tells whether the output is still
empty). -/
def encodePairs (keyEscaped : GoString) : List GoString → Bool → GoString × Bool
  | [], first => ([], first)
  | v :: vs, first =>
    let rest := encodePairs keyEscaped vs false
    ((if first then [] else [38]) ++ keyEscaped ++ 61 :: (QueryEscape v ++ rest.1), rest.2)

/-- The loop of `Values.Encode` over the sorted keys. -/
def encodeSorted : Values → Bool → GoString
  | [], _ => []
  | (k, vs) :: rest, first =>
    let r := encodePairs (QueryEscape k) vs first
    r.1 ++ encodeSorted rest r.2

/-- Go `Values.Encode`: the pairs `key=value`, escaped, joined by `&`, in
ascending key order. -/
def Values.Encode (v : Values) : GoString :=
  encodeSorted (sortByKey v) true

/-! ## Data model of the package -/

/-- The package constant `DefaultBaseURL`. -/
def DefaultBaseURL : GoString := str "https://www.1secmail.com/api/v1/"

/-- The package constant `Version`. -/
def Version : GoString := str "0.1"

/-- The struct `MessageItem`. -/
structure MessageItem where
  ID : Int
  From : GoString
  Subject : GoString
  Date : GoString
  deriving DecidableEq, Repr

/-- The anonymous element struct of `Message.Attachments`. -/
structure Attachment where
  ContentType : GoString
  Filename : GoString
  Size : Int
  deriving DecidableEq, Repr

/-- The struct `Message`. -/
structure Message where
  ID : Int
  From : GoString
  Subject : GoString
  Date : GoString
  Attachments : GoSlice Attachment
  Body : GoString
  TextBody : GoString
  HTMLBody : GoString
  deriving DecidableEq, Repr

/-- The zero value of `Message` (`var v Message`). -/
def Message.zero : Message :=
  { ID := 0, From := [], Subject := [], Date := [], Attachments := none,
    Body := [], TextBody := [], HTMLBody := [] }

/-- The dynamic type of the pointer stored in the `jsonInto interface{}`
argument: the four pointer types this package passes. -/
inductive GoType where
  | ptrSliceString
  | ptrSliceMessageItem
  | ptrMessage
  | ptrSliceByte
  deriving DecidableEq, Repr

/-- The type of the variable a `jsonInto` pointer of the given type points to. -/
@[reducible]
def GoType.pointee : GoType → Type
  | .ptrSliceString => GoSlice GoString
  | .ptrSliceMessageItem => GoSlice MessageItem
  | .ptrMessage => Message
  | .ptrSliceByte => GoSlice Nat

/-- The Go type a decode error names. -/
inductive TypeName where
  | int
  | string
  | sliceString
  | messageItem
  | sliceMessageItem
  | message
  | attachment
  | sliceAttachment
  deriving DecidableEq, Repr

/-- Errors returned by `(*json.Decoder).Decode`.  A `SyntaxError` keeps the
offending byte, the context text and the offset; an `UnmarshalTypeError` keeps
the JSON value description and the Go type (its offset and field path are not
modelled). -/
inductive DecodeError where
  | EOF
  | ErrUnexpectedEOF
  | SyntaxError (c : Nat) (context : String) (Offset : Nat)
  | UnmarshalTypeError (Value : GoString) (Typ : TypeName)
  | other (msg : GoString)
  deriving DecidableEq, Repr

/-- The `error` values `doReqURL` can return: an error handed over by
`net/http` or `io` (kept as it is), or one of the two error structs of the
package. -/
inductive Error (E : Type) where
  | ext (e : E)
  | ErrBadStatusCode (OriginalBody : GoString) (Code : Int)
  | ErrNotExpectedJSON (OriginalBody : GoString) (Err : DecodeError)
  deriving DecidableEq, Repr

/-- One argument of a call of the variadic hook `Log`. -/
inductive LogValue where
  | string (s : GoString)
  | int (n : Int)
  deriving DecidableEq, Repr

/-- The type `Log func(...interface{})`: what a call does to the state `σ` the
hook writes to. -/
abbrev Log (σ : Type) := List LogValue → σ → σ

/-- The request `doReqURL` builds: method, URL, User-Agent header and context. -/
structure Request (κ : Type) where
  Method : GoString
  URL : GoString
  UserAgent : GoString
  ctx : κ

/-- What `io.Copy(&b, resp.Body)` produces: the buffer `b` (its `Bytes()`, nil
when nothing was ever written to it) and the error of the copy. -/
structure Copied (E : Type) where
  buf : GoSlice Nat
  err : Option E

/-- The part of `http.Response` the package reads. -/
structure Response (E : Type) where
  StatusCode : Int
  Body : Copied E

/-- The struct `Client`.  `HTTPClient` is the behaviour of `client.Do`. -/
structure Client (E κ σ : Type) where
  HTTPClient : Request κ → Except E (Response E)
  BaseURL : GoString
  VerboseLog : Option (Log σ)

/-- The library functions `doReqURL` calls that are not part of the package:
`runtime.Version()`, the error of `http.NewRequest(method, url, nil)` and
`json.NewDecoder(&b).Decode(target)`, which returns the target as it leaves it
and its error. -/
structure Lib (E : Type) where
  runtimeVersion : GoString
  NewRequest : GoString → GoString → Option E
  Decode : (t : GoType) → List Nat → t.pointee → t.pointee × Option DecodeError

/-! ## `encoding/json`: the scanner (`scanner.go`) -/

/-- The op codes a scanner step returns (`scanContinue` ... `scanError`). -/
inductive ScanOp where
  | scanContinue
  | scanBeginLiteral
  | scanBeginObject
  | scanObjectKey
  | scanObjectValue
  | scanEndObject
  | scanBeginArray
  | scanArrayValue
  | scanEndArray
  | scanSkipSpace
  | scanEnd
  | scanError
  deriving DecidableEq, Repr

/-- The entries of the scanner's parse stack. -/
inductive ParseState where
  | parseObjectKey
  | parseObjectValue
  | parseArrayValue
  deriving DecidableEq, Repr

/-- The state functions the field `scanner.step` can hold. -/
inductive StepFn where
  | stateBeginValueOrEmpty
  | stateBeginValue
  | stateBeginStringOrEmpty
  | stateBeginString
  | stateEndValue
  | stateEndTop
  | stateInString
  | stateInStringEsc
  | stateInStringEscU
  | stateInStringEscU1
  | stateInStringEscU12
  | stateInStringEscU123
  | stateNeg
  | state1
  | state0
  | stateDot
  | stateDot0
  | stateE
  | stateESign
  | stateE0
  | stateT
  | stateTr
  | stateTru
  | stateF
  | stateFa
  | stateFal
  | stateFals
  | stateN
  | stateNu
  | stateNul
  | stateError
  deriving DecidableEq, Repr

/-- The struct `scanner`.  The parse stack has its top at the head. -/
structure Scanner where
  step : StepFn
  endTop : Bool
  parseState : List ParseState
  err : Option DecodeError
  bytes : Nat
  deriving DecidableEq, Repr

/-- The constant `maxNestingDepth`. -/
def maxNestingDepth : Nat := 10000

/-- The scanner after `reset()`, with its byte counter at zero. -/
def Scanner.reset : Scanner :=
  { step := .stateBeginValue, endTop := false, parseState := [], err := none, bytes := 0 }

/-- The method `scanner.error`: records a syntax error and stops the scanner. -/
def Scanner.error (s : Scanner) (c : Nat) (context : String) : Scanner × ScanOp :=
  ({ s with step := .stateError, err := some (.SyntaxError c context s.bytes) }, .scanError)

/-- The method `scanner.pushParseState`. -/
def Scanner.pushParseState (s : Scanner) (c : Nat) (newParseState : ParseState)
    (successState : ScanOp) : Scanner × ScanOp :=
  let s := { s with parseState := newParseState :: s.parseState }
  if s.parseState.length ≤ maxNestingDepth then (s, successState)
  else s.error c "exceeded max depth"

/-- The method `scanner.popParseState`. -/
def Scanner.popParseState (s : Scanner) : Scanner :=
  let s := { s with parseState := s.parseState.tail }
  if s.parseState.length = 0 then { s with step := .stateEndTop, endTop := true }
  else { s with step := .stateEndValue }

/-- The function `isSpace`. -/
def isSpace (c : Nat) : Bool :=
  c ≤ 32 && (c = 32 || c = 9 || c = 13 || c = 10)

/-- Whether `c` is an ASCII digit `0`..`9`. -/
def isDigit (c : Nat) : Bool := 48 ≤ c && c ≤ 57

/-- Whether `c` is a hexadecimal digit. -/
def isHex (c : Nat) : Bool :=
  (48 ≤ c && c ≤ 57) || (97 ≤ c && c ≤ 102) || (65 ≤ c && c ≤ 70)

/-- The state `stateEndTop`: a non-space byte after the top-level value is
recorded as an error for the next call, and `scanEnd` is returned anyway. -/
def stateEndTop (s : Scanner) (c : Nat) : Scanner × ScanOp :=
  if !isSpace c then ((s.error c "after top-level value").1, .scanEnd)
  else (s, .scanEnd)

/-- The state `stateEndValue`. -/
def stateEndValue (s : Scanner) (c : Nat) : Scanner × ScanOp :=
  match s.parseState with
  | [] => stateEndTop { s with step := .stateEndTop, endTop := true } c
  | ps :: below =>
    if isSpace c then ({ s with step := .stateEndValue }, .scanSkipSpace)
    else
      match ps with
      | .parseObjectKey =>
        if c = 58 then
          ({ s with parseState := .parseObjectValue :: below, step := .stateBeginValue },
            .scanObjectKey)
        else s.error c "after object key"
      | .parseObjectValue =>
        if c = 44 then
          ({ s with parseState := .parseObjectKey :: below, step := .stateBeginString },
            .scanObjectValue)
        else if c = 125 then (s.popParseState, .scanEndObject)
        else s.error c "after object key:value pair"
      | .parseArrayValue =>
        if c = 44 then ({ s with step := .stateBeginValue }, .scanArrayValue)
        else if c = 93 then (s.popParseState, .scanEndArray)
        else s.error c "after array element"

/-- The state `stateBeginValue`. -/
def stateBeginValue (s : Scanner) (c : Nat) : Scanner × ScanOp :=
  if isSpace c then (s, .scanSkipSpace)
  else if c = 123 then
    Scanner.pushParseState { s with step := .stateBeginStringOrEmpty } c .parseObjectKey
      .scanBeginObject
  else if c = 91 then
    Scanner.pushParseState { s with step := .stateBeginValueOrEmpty } c .parseArrayValue
      .scanBeginArray
  else if c = 34 then ({ s with step := .stateInString }, .scanBeginLiteral)
  else if c = 45 then ({ s with step := .stateNeg }, .scanBeginLiteral)
  else if c = 48 then ({ s with step := .state0 }, .scanBeginLiteral)
  else if c = 116 then ({ s with step := .stateT }, .scanBeginLiteral)
  else if c = 102 then ({ s with step := .stateF }, .scanBeginLiteral)
  else if c = 110 then ({ s with step := .stateN }, .scanBeginLiteral)
  else if 49 ≤ c ∧ c ≤ 57 then ({ s with step := .state1 }, .scanBeginLiteral)
  else s.error c "looking for beginning of value"

/-- The state `stateBeginValueOrEmpty`. -/
def stateBeginValueOrEmpty (s : Scanner) (c : Nat) : Scanner × ScanOp :=
  if isSpace c then (s, .scanSkipSpace)
  else if c = 93 then stateEndValue s c
  else stateBeginValue s c

/-- The state `stateBeginString`. -/
def stateBeginString (s : Scanner) (c : Nat) : Scanner × ScanOp :=
  if isSpace c then (s, .scanSkipSpace)
  else if c = 34 then ({ s with step := .stateInString }, .scanBeginLiteral)
  else s.error c "looking for beginning of object key string"

/-- The state `stateBeginStringOrEmpty`. -/
def stateBeginStringOrEmpty (s : Scanner) (c : Nat) : Scanner × ScanOp :=
  if isSpace c then (s, .scanSkipSpace)
  else if c = 125 then
    stateEndValue { s with parseState := .parseObjectValue :: s.parseState.tail } c
  else stateBeginString s c

/-- The state `stateInString`. -/
def stateInString (s : Scanner) (c : Nat) : Scanner × ScanOp :=
  if c = 34 then ({ s with step := .stateEndValue }, .scanContinue)
  else if c = 92 then ({ s with step := .stateInStringEsc }, .scanContinue)
  else if c < 32 then s.error c "in string literal"
  else (s, .scanContinue)

/-- The state `stateInStringEsc`. -/
def stateInStringEsc (s : Scanner) (c : Nat) : Scanner × ScanOp :=
  if c = 98 ∨ c = 102 ∨ c = 110 ∨ c = 114 ∨ c = 116 ∨ c = 92 ∨ c = 47 ∨ c = 34 then
    ({ s with step := .stateInString }, .scanContinue)
  else if c = 117 then ({ s with step := .stateInStringEscU }, .scanContinue)
  else s.error c "in string escape code"

/-- The states `stateInStringEscU`, `...U1`, `...U12`, `...U123`: one
hexadecimal digit, then on to `next`. -/
def stateInStringEscHex (next : StepFn) (s : Scanner) (c : Nat) : Scanner × ScanOp :=
  if isHex c then ({ s with step := next }, .scanContinue)
  else s.error c "in \\u hexadecimal character escape"

/-- The state `stateNeg`. -/
def stateNeg (s : Scanner) (c : Nat) : Scanner × ScanOp :=
  if c = 48 then ({ s with step := .state0 }, .scanContinue)
  else if 49 ≤ c ∧ c ≤ 57 then ({ s with step := .state1 }, .scanContinue)
  else s.error c "in numeric literal"

/-- The state `state0`. -/
def state0 (s : Scanner) (c : Nat) : Scanner × ScanOp :=
  if c = 46 then ({ s with step := .stateDot }, .scanContinue)
  else if c = 101 ∨ c = 69 then ({ s with step := .stateE }, .scanContinue)
  else stateEndValue s c

/-- The state `state1`. -/
def state1 (s : Scanner) (c : Nat) : Scanner × ScanOp :=
  if isDigit c then ({ s with step := .state1 }, .scanContinue)
  else state0 s c

/-- The state `stateDot`. -/
def stateDot (s : Scanner) (c : Nat) : Scanner × ScanOp :=
  if isDigit c then ({ s with step := .stateDot0 }, .scanContinue)
  else s.error c "after decimal point in numeric literal"

/-- The state `stateDot0`. -/
def stateDot0 (s : Scanner) (c : Nat) : Scanner × ScanOp :=
  if isDigit c then (s, .scanContinue)
  else if c = 101 ∨ c = 69 then ({ s with step := .stateE }, .scanContinue)
  else stateEndValue s c

/-- The state `stateESign`. -/
def stateESign (s : Scanner) (c : Nat) : Scanner × ScanOp :=
  if isDigit c then ({ s with step := .stateE0 }, .scanContinue)
  else s.error c "in exponent of numeric literal"

/-- The state `stateE`. -/
def stateE (s : Scanner) (c : Nat) : Scanner × ScanOp :=
  if c = 43 ∨ c = 45 then ({ s with step := .stateESign }, .scanContinue)
  else stateESign s c

/-- The state `stateE0`. -/
def stateE0 (s : Scanner) (c : Nat) : Scanner × ScanOp :=
  if isDigit c then (s, .scanContinue)
  else stateEndValue s c

/-- The states inside `true`, `false` and `null`: the byte `want` leads to
`next`, anything else is an error. -/
def stateKeyword (want : Nat) (next : StepFn) (context : String) (s : Scanner) (c : Nat) :
    Scanner × ScanOp :=
  if c = want then ({ s with step := next }, .scanContinue)
  else s.error c context

/-- The call `s.step(s, c)`: runs the state function the scanner holds. -/
def Scanner.run (s : Scanner) (c : Nat) : Scanner × ScanOp :=
  match s.step with
  | .stateBeginValueOrEmpty => stateBeginValueOrEmpty s c
  | .stateBeginValue => stateBeginValue s c
  | .stateBeginStringOrEmpty => stateBeginStringOrEmpty s c
  | .stateBeginString => stateBeginString s c
  | .stateEndValue => stateEndValue s c
  | .stateEndTop => stateEndTop s c
  | .stateInString => stateInString s c
  | .stateInStringEsc => stateInStringEsc s c
  | .stateInStringEscU => stateInStringEscHex .stateInStringEscU1 s c
  | .stateInStringEscU1 => stateInStringEscHex .stateInStringEscU12 s c
  | .stateInStringEscU12 => stateInStringEscHex .stateInStringEscU123 s c
  | .stateInStringEscU123 => stateInStringEscHex .stateInString s c
  | .stateNeg => stateNeg s c
  | .state1 => state1 s c
  | .state0 => state0 s c
  | .stateDot => stateDot s c
  | .stateDot0 => stateDot0 s c
  | .stateE => stateE s c
  | .stateESign => stateESign s c
  | .stateE0 => stateE0 s c
  | .stateT => stateKeyword 114 .stateTr "in literal true (expecting 'r')" s c
  | .stateTr => stateKeyword 117 .stateTru "in literal true (expecting 'u')" s c
  | .stateTru => stateKeyword 101 .stateEndValue "in literal true (expecting 'e')" s c
  | .stateF => stateKeyword 97 .stateFa "in literal false (expecting 'a')" s c
  | .stateFa => stateKeyword 108 .stateFal "in literal false (expecting 'l')" s c
  | .stateFal => stateKeyword 115 .stateFals "in literal false (expecting 's')" s c
  | .stateFals => stateKeyword 101 .stateEndValue "in literal false (expecting 'e')" s c
  | .stateN => stateKeyword 117 .stateNu "in literal null (expecting 'u')" s c
  | .stateNu => stateKeyword 108 .stateNul "in literal null (expecting 'l')" s c
  | .stateNul => stateKeyword 108 .stateEndValue "in literal null (expecting 'l')" s c
  | .stateError => (s, .scanError)

/-- The function `nonSpace`: whether some byte is not JSON white space. -/
def nonSpace (b : List Nat) : Bool :=
  b.any fun c => !isSpace c

/-- The loop of `(*Decoder).readValue` over the bytes not yet scanned, `scanp`
bytes having been scanned.  `buf` is the whole input, all of which the reader
(a `bytes.Buffer`) delivers before it reports end of file. -/
def readValueLoop (buf : List Nat) : List Nat → Scanner → Nat → Except DecodeError Nat
  | [], s, scanp =>
    if (s.run 32).2 = .scanEnd then .ok scanp
    else if nonSpace buf then .error .ErrUnexpectedEOF
    else .error .EOF
  | c :: rest, s, scanp =>
    let r := Scanner.run { s with bytes := s.bytes + 1 } c
    match r.2 with
    | .scanEnd => .ok scanp
    | .scanEndObject =>
      let r2 := stateEndValue r.1 32
      if r2.2 = .scanEnd then .ok (scanp + 1) else readValueLoop buf rest r2.1 (scanp + 1)
    | .scanEndArray =>
      let r2 := stateEndValue r.1 32
      if r2.2 = .scanEnd then .ok (scanp + 1) else readValueLoop buf rest r2.1 (scanp + 1)
    | .scanError => .error (r.1.err.getD (.other []))
    | _ => readValueLoop buf rest r.1 (scanp + 1)

/-- The method `(*Decoder).readValue` on a fresh decoder whose reader holds
`buf`: the length of the first JSON value of the input (leading white space
included), or the error. -/
def readValue (buf : List Nat) : Except DecodeError Nat :=
  readValueLoop buf buf Scanner.reset 0

/-! ## `encoding/json`: reading the value (`decode.go`)

`decodeState` walks the bytes of the value with a scanner of its own and stores
what it reads into the target through reflection.  Here the walk is split in
two: the scanner's op codes build the tree of the value, and the tree is stored
into the target, one function per Go type of this package. -/

/-- A JSON value as `decodeState` reads it: numbers keep their text, strings
and object keys are unquoted, object members keep their order and duplicates. -/
inductive JSON where
  | null
  | bool (b : Bool)
  | number (lit : GoString)
  | string (s : GoString)
  | array (elems : List JSON)
  | object (members : List (GoString × JSON))

/-- The value of a hexadecimal digit. -/
def hexVal (c : Nat) : Option Nat :=
  if 48 ≤ c ∧ c ≤ 57 then some (c - 48)
  else if 97 ≤ c ∧ c ≤ 102 then some (c - 87)
  else if 65 ≤ c ∧ c ≤ 70 then some (c - 55)
  else none

/-- The function `getu4` on the four bytes after `\u`. -/
def getu4 (a b c d : Nat) : Option Nat :=
  match hexVal a, hexVal b, hexVal c, hexVal d with
  | some x, some y, some z, some w => some (x * 4096 + y * 256 + z * 16 + w)
  | _, _, _, _ => none

/-- Go `utf8.EncodeRune`: surrogates and values above `U+10FFFF` are encoded
as `U+FFFD`. -/
def EncodeRune (r : Nat) : List Nat :=
  if r ≤ 127 then [r]
  else if r ≤ 2047 then [192 + r / 64, 128 + r % 64]
  else if r > 1114111 ∨ (55296 ≤ r ∧ r ≤ 57343) then [239, 191, 189]
  else if r ≤ 65535 then [224 + r / 4096, 128 + r / 64 % 64, 128 + r % 64]
  else [240 + r / 262144, 128 + r / 4096 % 64, 128 + r / 64 % 64, 128 + r % 64]

/-- Whether `b` is a UTF-8 continuation byte within `lo..hi`. -/
def inRange (lo hi b : Nat) : Bool := lo ≤ b && b ≤ hi

/-- Go `utf8.DecodeRune` on a sequence starting with the non-ASCII byte `p0`:
the size of the well-formed encoding at the head, `none` when the head is not
well formed (Go: `RuneError` of size 1). -/
def utf8Size (p0 : Nat) (rest : List Nat) : Option Nat :=
  let two (lo hi : Nat) : Option Nat :=
    match rest with
    | b1 :: _ => if inRange lo hi b1 then some 2 else none
    | _ => none
  let three (lo hi : Nat) : Option Nat :=
    match rest with
    | b1 :: b2 :: _ => if inRange lo hi b1 && inRange 128 191 b2 then some 3 else none
    | _ => none
  let four (lo hi : Nat) : Option Nat :=
    match rest with
    | b1 :: b2 :: b3 :: _ =>
      if inRange lo hi b1 && inRange 128 191 b2 && inRange 128 191 b3 then some 4 else none
    | _ => none
  if 194 ≤ p0 ∧ p0 ≤ 223 then two 128 191
  else if p0 = 224 then three 160 191
  else if 225 ≤ p0 ∧ p0 ≤ 236 then three 128 191
  else if p0 = 237 then three 128 159
  else if 238 ≤ p0 ∧ p0 ≤ 239 then three 128 191
  else if p0 = 240 then four 144 191
  else if 241 ≤ p0 ∧ p0 ≤ 243 then four 128 191
  else if p0 = 244 then four 128 143
  else none

/-- The escape `\uXXXX` read in `unquoteBytes`, `rest` being the text after
the `u`: the bytes it stands for and how many bytes of `rest` it uses up.  A
surrogate is combined with a low surrogate escape that follows it; without one
it becomes `U+FFFD` and the following escape is left to be read on its own.
`none` is Go's `ok = false`. -/
def unquoteU (rest : List Nat) : Option (List Nat × Nat) :=
  match rest with
  | a :: b :: c4 :: d :: rest2 =>
    match getu4 a b c4 d with
    | none => none
    | some rr =>
      if 55296 ≤ rr ∧ rr < 57344 then
        match rest2 with
        | b0 :: u0 :: a2 :: b2 :: c2 :: d2 :: _ =>
          match (if b0 = 92 ∧ u0 = 117 then getu4 a2 b2 c2 d2 else none) with
          | some rr1 =>
            if rr < 56320 ∧ 56320 ≤ rr1 ∧ rr1 < 57344 then
              some (EncodeRune ((rr - 55296) * 1024 + (rr1 - 56320) + 65536), 10)
            else some ([239, 191, 189], 4)
          | none => some ([239, 191, 189], 4)
        | _ => some ([239, 191, 189], 4)
      else some (EncodeRune rr, 4)
  | _ => none

/-- The loop of `unquoteBytes` over the text between the quotes: escapes are
replaced and ill-formed UTF-8 is replaced byte by byte with `U+FFFD`.  The
first argument counts bytes already dealt with by an earlier step (the rest of
an escape or of a multi-byte character).  `none` is Go's `ok = false`. -/
def unquoteLoop : Nat → List Nat → Option (List Nat)
  | _, [] => some []
  | skip + 1, _ :: rest => unquoteLoop skip rest
  | 0, c :: rest =>
    if c = 92 then
      match rest with
      | [] => none
      | e :: rest1 =>
        if e = 34 ∨ e = 92 ∨ e = 47 ∨ e = 39 then (unquoteLoop 1 rest).map (e :: ·)
        else if e = 98 then (unquoteLoop 1 rest).map (8 :: ·)
        else if e = 102 then (unquoteLoop 1 rest).map (12 :: ·)
        else if e = 110 then (unquoteLoop 1 rest).map (10 :: ·)
        else if e = 114 then (unquoteLoop 1 rest).map (13 :: ·)
        else if e = 116 then (unquoteLoop 1 rest).map (9 :: ·)
        else if e = 117 then
          match unquoteU rest1 with
          | some (out, n) => (unquoteLoop (n + 1) rest).map (out ++ ·)
          | none => none
        else none
    else if c = 34 ∨ c < 32 then none
    else if c < 128 then (unquoteLoop 0 rest).map (c :: ·)
    else
      match utf8Size c rest with
      | some n => (unquoteLoop (n - 1) rest).map (c :: rest.take (n - 1) ++ ·)
      | none => (unquoteLoop 0 rest).map ([239, 191, 189] ++ ·)

/-- The function `unquoteBytes` on a quoted string literal. -/
def unquoteBytes (s : List Nat) : Option (List Nat) :=
  match s with
  | 34 :: t => if t.getLast? = some 34 then unquoteLoop 0 t.dropLast else none
  | _ => none

/-- The value of a literal (string, number, `true`, `false`, `null`), told
apart by its first byte as in `literalStore`. -/
def literalValue (item : List Nat) : Option JSON :=
  match item with
  | [] => none
  | c :: _ =>
    if c = 34 then (unquoteBytes item).map .string
    else if c = 116 then some (.bool true)
    else if c = 102 then some (.bool false)
    else if c = 110 then some .null
    else some (.number item)

/-- An array or object that is being read: what has been read of it, last
first, and for an object the key whose value is awaited. -/
inductive Frame where
  | array (rev : List JSON)
  | object (rev : List (GoString × JSON)) (key : Option GoString)

/-- The reading position of `decodeState`: the literal being read (its bytes,
last first), the value just completed, and the enclosing arrays and objects. -/
structure Walk where
  lit : Option (List Nat)
  cur : Option JSON
  stack : List Frame

/-- The end of a literal: its bytes become the completed value. -/
def Walk.closeLit (w : Walk) : Option Walk :=
  match w.lit with
  | none => some w
  | some l => (literalValue l.reverse).map fun v => { w with lit := none, cur := some v }

/-- What one byte `c` with op code `op` does to the reading position. -/
def Walk.next (w : Walk) (c : Nat) (op : ScanOp) : Option Walk :=
  match op with
  | .scanContinue =>
    match w.lit with
    | some l => some { w with lit := some (c :: l) }
    | none => some w
  | .scanBeginLiteral => some { w with lit := some [c] }
  | .scanSkipSpace => w.closeLit
  | .scanBeginObject => some { w with stack := .object [] none :: w.stack }
  | .scanBeginArray => some { w with stack := .array [] :: w.stack }
  | .scanObjectKey =>
    w.closeLit.bind fun w =>
      match w.cur, w.stack with
      | some (.string k), .object ps none :: st =>
        some { w with cur := none, stack := .object ps (some k) :: st }
      | _, _ => none
  | .scanObjectValue =>
    w.closeLit.bind fun w =>
      match w.cur, w.stack with
      | some v, .object ps (some k) :: st =>
        some { w with cur := none, stack := .object ((k, v) :: ps) none :: st }
      | _, _ => none
  | .scanEndObject =>
    w.closeLit.bind fun w =>
      match w.cur, w.stack with
      | some v, .object ps (some k) :: st =>
        some { w with cur := some (.object ((k, v) :: ps).reverse), stack := st }
      | none, .object ps none :: st =>
        some { w with cur := some (.object ps.reverse), stack := st }
      | _, _ => none
  | .scanArrayValue =>
    w.closeLit.bind fun w =>
      match w.cur, w.stack with
      | some v, .array xs :: st => some { w with cur := none, stack := .array (v :: xs) :: st }
      | _, _ => none
  | .scanEndArray =>
    w.closeLit.bind fun w =>
      match w.cur, w.stack with
      | some v, .array xs :: st =>
        some { w with cur := some (.array (v :: xs).reverse), stack := st }
      | none, .array xs :: st => some { w with cur := some (.array xs.reverse), stack := st }
      | _, _ => none
  | .scanEnd => none
  | .scanError => none

/-- The walk over the bytes of the value. -/
def walkLoop : List Nat → Scanner → Walk → Option Walk
  | [], _, w => w.closeLit
  | c :: rest, s, w =>
    let r := s.run c
    (w.next c r.2).bind fun w => walkLoop rest r.1 w

/-- The tree of the value held in `data` (the bytes `readValue` delimited);
`none` is Go's panic "JSON decoder out of sync". -/
def readTree (data : List Nat) : Option JSON :=
  (walkLoop data Scanner.reset { lit := none, cur := none, stack := [] }).bind fun w =>
    match w.stack with
    | [] => w.cur
    | _ => none

/-! ## `encoding/json`: storing the value into the target

A value of the wrong JSON kind is not fatal in Go: `d.saveError` keeps the
first `UnmarshalTypeError`, the value is skipped, the target keeps what it
held, and decoding goes on.  `null` leaves strings, integers and structs as
they are and sets a slice to nil. -/

/-- The method `decodeState.saveError`: only the first error is kept. -/
def saveError (saved e : Option DecodeError) : Option DecodeError :=
  match saved with
  | some x => some x
  | none => e

/-- The text after a leading sign read as a decimal number, `none` when it is
empty or holds anything but digits. -/
def decimalValue : List Nat → Option Nat → Option Nat
  | [], acc => acc
  | c :: cs, acc => if isDigit c then decimalValue cs (some (acc.getD 0 * 10 + (c - 48))) else none

/-- Go `strconv.ParseInt(s, 10, 64)`, `none` for an error (bad text or a value
outside the 64-bit range). -/
def ParseInt (s : GoString) : Option Int :=
  match s with
  | [] => none
  | c :: cs =>
    if c = 45 then
      match decimalValue cs none with
      | some n => if n ≤ 9223372036854775808 then some (-(n : Int)) else none
      | none => none
    else
      match decimalValue (if c = 43 then cs else c :: cs) none with
      | some n => if n < 9223372036854775808 then some (n : Int) else none
      | none => none

/-- The description `UnmarshalTypeError.Value` of a JSON value that does not
fit a target which is neither an integer nor able to hold it. -/
def JSON.describe : JSON → GoString
  | .null => str "null"
  | .bool _ => str "bool"
  | .number _ => str "number"
  | .string _ => str "string"
  | .array _ => str "array"
  | .object _ => str "object"

/-- Storing a value into a Go `string`. -/
def storeString (j : JSON) (v : GoString) : GoString × Option DecodeError :=
  match j with
  | .string s => (s, none)
  | .null => (v, none)
  | other => (v, some (.UnmarshalTypeError other.describe .string))

/-- Storing a value into a Go `int` (64 bits). -/
def storeInt (j : JSON) (v : Int) : Int × Option DecodeError :=
  match j with
  | .number lit =>
    match ParseInt lit with
    | some n => (n, none)
    | none => (v, some (.UnmarshalTypeError (str "number " ++ lit) .int))
  | .null => (v, none)
  | other => (v, some (.UnmarshalTypeError other.describe .int))

/-- The loop of `decodeState.array` over the elements: element `i` is stored
into what the slice's array holds at index `i` (`olds`), or into a zero value
beyond it. -/
def storeElems {α : Type} (store : JSON → α → α × Option DecodeError) (zero : α) :
    List JSON → List α → List α × Option DecodeError
  | [], _ => ([], none)
  | x :: xs, olds =>
    let r := store x (olds.headD zero)
    let rs := storeElems store zero xs olds.tail
    (r.1 :: rs.1, saveError r.2 rs.2)

/-- The function `foldName`, as far as matching ASCII field names goes: ASCII
letters are upper-cased, and the two non-ASCII characters whose case folding
is an ASCII letter, `U+017F` (long s) and `U+212A` (Kelvin sign), become `S`
and `K`; other bytes are kept. -/
def foldName : GoString → GoString
  | [] => []
  | 197 :: 191 :: cs => 83 :: foldName cs
  | 226 :: 132 :: 170 :: cs => 75 :: foldName cs
  | c :: cs => (if 97 ≤ c ∧ c ≤ 122 then c - 32 else c) :: foldName cs

/-- The index of the first of `names` for which `p` holds. -/
def findIndex (p : GoString → Bool) : List GoString → Option Nat
  | [] => none
  | n :: ns => if p n then some 0 else (findIndex p ns).map (· + 1)

/-- The struct field an object key is stored into: the field whose JSON name
is the key, else the field whose name equals the key after case folding. -/
def findField (names : List GoString) (key : GoString) : Option Nat :=
  match findIndex (fun n => n = key) names with
  | some i => some i
  | none => findIndex (fun n => foldName n = foldName key) names

/-- The JSON names of the fields of `MessageItem`, in field order. -/
def messageItemFields : List GoString :=
  [str "id", str "from", str "subject", str "date"]

/-- The JSON names of the fields of an attachment, in field order. -/
def attachmentFields : List GoString :=
  [str "contentType", str "filename", str "size"]

/-- The JSON names of the fields of `Message`, in field order. -/
def messageFields : List GoString :=
  [str "id", str "from", str "subject", str "date", str "attachments", str "body",
    str "textBody", str "htmlBody"]

/-- The loop of `decodeState.object` for a `MessageItem`. -/
def storeMessageItemMembers : List (GoString × JSON) → MessageItem →
    MessageItem × Option DecodeError
  | [], v => (v, none)
  | (key, j) :: rest, v =>
    let r : MessageItem × Option DecodeError :=
      match findField messageItemFields key with
      | some 0 => let x := storeInt j v.ID; ({ v with ID := x.1 }, x.2)
      | some 1 => let x := storeString j v.From; ({ v with From := x.1 }, x.2)
      | some 2 => let x := storeString j v.Subject; ({ v with Subject := x.1 }, x.2)
      | some 3 => let x := storeString j v.Date; ({ v with Date := x.1 }, x.2)
      | _ => (v, none)
    let rs := storeMessageItemMembers rest r.1
    (rs.1, saveError r.2 rs.2)

/-- Storing a value into a `MessageItem`. -/
def storeMessageItem (j : JSON) (v : MessageItem) : MessageItem × Option DecodeError :=
  match j with
  | .object members => storeMessageItemMembers members v
  | .null => (v, none)
  | other => (v, some (.UnmarshalTypeError other.describe .messageItem))

/-- The loop of `decodeState.object` for an attachment. -/
def storeAttachmentMembers : List (GoString × JSON) → Attachment →
    Attachment × Option DecodeError
  | [], v => (v, none)
  | (key, j) :: rest, v =>
    let r : Attachment × Option DecodeError :=
      match findField attachmentFields key with
      | some 0 => let x := storeString j v.ContentType; ({ v with ContentType := x.1 }, x.2)
      | some 1 => let x := storeString j v.Filename; ({ v with Filename := x.1 }, x.2)
      | some 2 => let x := storeInt j v.Size; ({ v with Size := x.1 }, x.2)
      | _ => (v, none)
    let rs := storeAttachmentMembers rest r.1
    (rs.1, saveError r.2 rs.2)

/-- Storing a value into an attachment. -/
def storeAttachment (j : JSON) (v : Attachment) : Attachment × Option DecodeError :=
  match j with
  | .object members => storeAttachmentMembers members v
  | .null => (v, none)
  | other => (v, some (.UnmarshalTypeError other.describe .attachment))

/-- Storing a value into a slice: the method `decodeState.array` for an array
(an empty array gives a fresh empty slice), nil for `null`.  `hidden` are the
elements the slice's array holds beyond the slice's length, left there by an
earlier, longer array; the result gives them anew. -/
def storeSlice {α : Type} (store : JSON → α → α × Option DecodeError) (zero : α)
    (typ : TypeName) (j : JSON) (v : GoSlice α) (hidden : List α) :
    (GoSlice α × List α) × Option DecodeError :=
  match j with
  | .array elems =>
    let r := storeElems store zero elems (v.elems ++ hidden)
    if elems.isEmpty then ((some [], []), r.2)
    else ((some r.1, (v.elems ++ hidden).drop elems.length), r.2)
  | .null => ((none, []), none)
  | other => ((v, hidden), some (.UnmarshalTypeError other.describe typ))

/-- The zero value of an attachment. -/
def Attachment.zero : Attachment := { ContentType := [], Filename := [], Size := 0 }

/-- The zero value of `MessageItem`. -/
def MessageItem.zero : MessageItem := { ID := 0, From := [], Subject := [], Date := [] }

/-- The loop of `decodeState.object` for a `Message`; `hidden` as in
`storeSlice`, for the field `Attachments`. -/
def storeMessageMembers : List (GoString × JSON) → Message → List Attachment →
    Message × Option DecodeError
  | [], v, _ => (v, none)
  | (key, j) :: rest, v, hidden =>
    let r : (Message × List Attachment) × Option DecodeError :=
      match findField messageFields key with
      | some 0 => let x := storeInt j v.ID; (({ v with ID := x.1 }, hidden), x.2)
      | some 1 => let x := storeString j v.From; (({ v with From := x.1 }, hidden), x.2)
      | some 2 => let x := storeString j v.Subject; (({ v with Subject := x.1 }, hidden), x.2)
      | some 3 => let x := storeString j v.Date; (({ v with Date := x.1 }, hidden), x.2)
      | some 4 =>
        let x := storeSlice storeAttachment Attachment.zero .sliceAttachment j v.Attachments
          hidden
        (({ v with Attachments := x.1.1 }, x.1.2), x.2)
      | some 5 => let x := storeString j v.Body; (({ v with Body := x.1 }, hidden), x.2)
      | some 6 => let x := storeString j v.TextBody; (({ v with TextBody := x.1 }, hidden), x.2)
      | some 7 => let x := storeString j v.HTMLBody; (({ v with HTMLBody := x.1 }, hidden), x.2)
      | _ => ((v, hidden), none)
    let rs := storeMessageMembers rest r.1.1 r.1.2
    (rs.1, saveError r.2 rs.2)

/-- Storing a value into a `Message`. -/
def storeMessage (j : JSON) (v : Message) : Message × Option DecodeError :=
  match j with
  | .object members => storeMessageMembers members v []
  | .null => (v, none)
  | other => (v, some (.UnmarshalTypeError other.describe .message))

/-- The method `decodeState.unmarshal` on the tree of the value, by the type
of the target.  A slice that is not nil to begin with is taken to own no
hidden elements.  Decoding into a `[]byte` is never asked for by this package
and is left to `storeBytes`. -/
def unmarshal (storeBytes : JSON → GoSlice Nat → GoSlice Nat × Option DecodeError) :
    (t : GoType) → JSON → t.pointee → t.pointee × Option DecodeError
  | .ptrSliceString, j, v =>
    let r := storeSlice storeString [] .sliceString j v []
    (r.1.1, r.2)
  | .ptrSliceMessageItem, j, v =>
    let r := storeSlice storeMessageItem MessageItem.zero .sliceMessageItem j v []
    (r.1.1, r.2)
  | .ptrMessage, j, v => storeMessage j v
  | .ptrSliceByte, j, v => storeBytes j v

/-- The method `(*Decoder).Decode` of a fresh decoder reading `body`: the
first JSON value of the input is delimited by `readValue`, and only that value
is unmarshalled; what follows it is not looked at. -/
def Decode (storeBytes : JSON → GoSlice Nat → GoSlice Nat × Option DecodeError)
    (t : GoType) (body : List Nat) (v : t.pointee) : t.pointee × Option DecodeError :=
  match readValue body with
  | .error e => (v, some e)
  | .ok n =>
    match readTree (body.take n) with
    | some j => unmarshal storeBytes t j v
    | none => (v, some (.other (str "JSON decoder out of sync")))

/-- The library as Go provides it, for a runtime version, the behaviour of
`http.NewRequest` and the decoding into `[]byte`. -/
def goLib {E : Type} (version : GoString) (newRequest : GoString → GoString → Option E)
    (storeBytes : JSON → GoSlice Nat → GoSlice Nat × Option DecodeError) : Lib E :=
  { runtimeVersion := version, NewRequest := newRequest, Decode := Decode storeBytes }

/-! ## The functions of `client.go` -/

section Code

variable {E κ σ : Type}

/-- The method `Client.verboseLog`: calls the hook when it is not nil. -/
def Client.verboseLog (c : Client E κ σ) (v : List LogValue) (s : σ) : σ :=
  match c.VerboseLog with
  | some f => f v s
  | none => s

/-- The method `Client.urlBase`. -/
def Client.urlBase (c : Client E κ σ) : GoString :=
  if c.BaseURL = [] then DefaultBaseURL else c.BaseURL

/-- The method `Client.url`: `fmt.Sprintf("%s?%s", c.urlBase(), params.Encode())`. -/
def Client.url (c : Client E κ σ) (params : Values) : GoString :=
  c.urlBase ++ 63 :: params.Encode

/-- The User-Agent header value `doReqURL` sets. -/
def userAgent (lib : Lib E) : GoString :=
  str "github.com/frei-0xff/onesecmail/" ++ Version ++ str " (gover " ++ lib.runtimeVersion ++ str ")"

/-- The method `Client.doReqURL`.  The context `ctx` is `none` for a nil
`context.Context`, on which `req.WithContext(ctx)` panics.  The result is the
returned error, the value of the variable `jsonInto` points to, and the state
of the hook. -/
def Client.doReqURL (lib : Lib E) (c : Client E κ σ) (ctx : Option κ) (u : GoString)
    (t : GoType) (jsonInto : t.pointee) (getRawData : Bool) (s : σ) :
    Exec (Option (Error E) × t.pointee × σ) :=
  let s := c.verboseLog [.string (str "fetching"), .string u] s
  match lib.NewRequest (str "GET") u with
  | some err => .returned (some (.ext err), jsonInto, s)
  | none =>
    match ctx with
    | none => .panicked
    | some k =>
      let req : Request κ :=
        { Method := str "GET", URL := u, UserAgent := userAgent lib, ctx := k }
      match c.HTTPClient req with
      | .error err => .returned (some (.ext err), jsonInto, s)
      | .ok resp =>
        match resp.Body.err with
        | some err => .returned (some (.ext err), jsonInto, s)
        | none =>
          let b := resp.Body.buf
          if getRawData then
            match t, jsonInto with
            | .ptrSliceByte, _ => .returned (none, b, s)
            | _, _ => .panicked
          else
            let debug : GoString := b.elems
            if resp.StatusCode ≠ 200 then
              let s :=
                c.verboseLog [.string (str "Invalid status code"), .int resp.StatusCode] s
              .returned (some (.ErrBadStatusCode debug resp.StatusCode), jsonInto, s)
            else
              let s := c.verboseLog [.string (str "Fetch result"), .string debug] s
              match lib.Decode t b.elems jsonInto with
              | (v, some err) => .returned (some (.ErrNotExpectedJSON debug err), v, s)
              | (v, none) => .returned (none, v, s)

/-- The method `Client.GenRandomMailbox`. -/
def Client.GenRandomMailbox (lib : Lib E) (c : Client E κ σ) (ctx : Option κ) (count : Int) (s : σ) :
    Exec ((GoSlice GoString × Option (Error E)) × σ) :=
  let v : GoSlice GoString := none
  let params : Values := []
  let params := params.Set (str "action") (str "genRandomMailbox")
  let params := params.Set (str "count") (Itoa count)
  match c.doReqURL lib ctx (c.url params) .ptrSliceString v false s with
  | .panicked => .panicked
  | .returned (some err, _, s) => .returned ((none, some err), s)
  | .returned (none, v, s) => .returned ((v, none), s)

/-- The method `Client.GetDomainList`. -/
def Client.GetDomainList (lib : Lib E) (c : Client E κ σ) (ctx : Option κ) (s : σ) :
    Exec ((GoSlice GoString × Option (Error E)) × σ) :=
  let v : GoSlice GoString := none
  let params : Values := []
  let params := params.Set (str "action") (str "getDomainList")
  match c.doReqURL lib ctx (c.url params) .ptrSliceString v false s with
  | .panicked => .panicked
  | .returned (some err, _, s) => .returned ((none, some err), s)
  | .returned (none, v, s) => .returned ((v, none), s)

/-- The method `Client.GetMessages`. -/
def Client.GetMessages (lib : Lib E) (c : Client E κ σ) (ctx : Option κ) (login domain : GoString)
    (s : σ) : Exec ((GoSlice MessageItem × Option (Error E)) × σ) :=
  let v : GoSlice MessageItem := none
  let params : Values := []
  let params := params.Set (str "action") (str "getMessages")
  let params := params.Set (str "login") login
  let params := params.Set (str "domain") domain
  match c.doReqURL lib ctx (c.url params) .ptrSliceMessageItem v false s with
  | .panicked => .panicked
  | .returned (some err, _, s) => .returned ((none, some err), s)
  | .returned (none, v, s) => .returned ((v, none), s)

/-- The method `Client.ReadMessage`; the result `*Message` is `none` for nil. -/
def Client.ReadMessage (lib : Lib E) (c : Client E κ σ) (ctx : Option κ) (login domain : GoString)
    (id : Int) (s : σ) : Exec ((Option Message × Option (Error E)) × σ) :=
  let v : Message := Message.zero
  let params : Values := []
  let params := params.Set (str "action") (str "readMessage")
  let params := params.Set (str "login") login
  let params := params.Set (str "domain") domain
  let params := params.Set (str "id") (Itoa id)
  match c.doReqURL lib ctx (c.url params) .ptrMessage v false s with
  | .panicked => .panicked
  | .returned (some err, _, s) => .returned ((none, some err), s)
  | .returned (none, v, s) => .returned ((some v, none), s)

/-- The method `Client.DownloadAttachment`. -/
def Client.DownloadAttachment (lib : Lib E) (c : Client E κ σ) (ctx : Option κ)
    (login domain : GoString) (id : Int) (filename : GoString) (s : σ) :
    Exec ((GoSlice Nat × Option (Error E)) × σ) :=
  let v : GoSlice Nat := none
  let params : Values := []
  let params := params.Set (str "action") (str "download")
  let params := params.Set (str "login") login
  let params := params.Set (str "domain") domain
  let params := params.Set (str "id") (Itoa id)
  let params := params.Set (str "file") filename
  match c.doReqURL lib ctx (c.url params) .ptrSliceByte v true s with
  | .panicked => .panicked
  | .returned (some err, _, s) => .returned ((none, some err), s)
  | .returned (none, v, s) => .returned ((v, none), s)

end Code

/-! ## Vocabulary of the statements -/

section Vocabulary

variable {E κ σ : Type}

/-- The request `doReqURL` sends for the URL `u`. -/
def requestFor (lib : Lib E) (k : κ) (u : GoString) : Request κ :=
  { Method := str "GET", URL := u, UserAgent := userAgent lib, ctx := k }

/-- The HTTP exchange for the URL `u` completes with the response `resp`: the
request is built, the context is not nil, `client.Do` returns `resp`, and the
body is read in full. -/
def Completes (lib : Lib E) (c : Client E κ σ) (ctx : Option κ) (u : GoString)
    (resp : Response E) : Prop :=
  lib.NewRequest (str "GET") u = none ∧
  ∃ k, ctx = some k ∧ c.HTTPClient (requestFor lib k u) = .ok resp ∧ resp.Body.err = none

/-- The HTTP exchange for the URL `u` fails with the error `e`: building the
request fails, or `client.Do` fails, or reading the body fails. -/
def TransportFails (lib : Lib E) (c : Client E κ σ) (ctx : Option κ) (u : GoString) (e : E) :
    Prop :=
  lib.NewRequest (str "GET") u = some e ∨
  (lib.NewRequest (str "GET") u = none ∧
    ∃ k, ctx = some k ∧ c.HTTPClient (requestFor lib k u) = .error e) ∨
  (lib.NewRequest (str "GET") u = none ∧
    ∃ k resp, ctx = some k ∧ c.HTTPClient (requestFor lib k u) = .ok resp ∧
      resp.Body.err = some e)

/-- What a public operation hands to its caller for an outcome of `doReqURL`
(`nil` is the operation's nil value, `wrap` turns the target into the result). -/
def deliver {α β : Type} (nil : β) (wrap : α → β) :
    Exec (Option (Error E) × α × σ) → Exec ((β × Option (Error E)) × σ)
  | .panicked => .panicked
  | .returned (some err, _, s) => .returned ((nil, some err), s)
  | .returned (none, v, s) => .returned ((wrap v, none), s)

/-- The returned error and the target of a run, without the state of the hook. -/
def Exec.visible {α : Type} : Exec (Option (Error E) × α × σ) → Exec (Option (Error E) × α)
  | .panicked => .panicked
  | .returned (err, v, _) => .returned (err, v)

/-- The state of the hook after a run of `doReqURL` that returned. -/
def Exec.hookState {α β : Type} : Exec (α × β × σ) → Option σ
  | .panicked => none
  | .returned (_, _, s) => some s

end Vocabulary

/-! ## The schema of the responses, in the words of the specification

The specification says that a body matching the schema decodes with every
field taken from the member of that name, other members being ignored.  The
definitions below say what that means for a tree: which field a member's key
names (`Naming`), whether the members that name a field hold a value of the
field's type (`fits...`), and the value the fields then have (`...Of`). -/

/-- How a key is taken to name a field: the index, among the JSON names of a
struct, of the field the key names. -/
abbrev Naming := List GoString → GoString → Option Nat

/-- Naming as the specification words it: a key names the field whose JSON
name it is. -/
def byName : Naming :=
  fun names key => findIndex (fun n => n = key) names

/-- Naming with letter case ignored: a key names the field whose JSON name
equals it after case folding. -/
def byFoldedName : Naming :=
  fun names key => findIndex (fun n => foldName n = foldName key) names

/-- The value of the last member whose key names field `i`. -/
def lastValue (nm : Naming) (names : List GoString) (i : Nat) :
    List (GoString × JSON) → Option JSON
  | [] => none
  | (key, j) :: rest =>
    match lastValue nm names i rest with
    | some x => some x
    | none => if nm names key = some i then some j else none

/-- The number of members whose key names field `i`. -/
def countNaming (nm : Naming) (names : List GoString) (i : Nat) :
    List (GoString × JSON) → Nat
  | [] => 0
  | (key, _) :: rest =>
    (if nm names key = some i then 1 else 0) + countNaming nm names i rest

/-- A JSON string. -/
def JSON.isString : JSON → Bool
  | .string _ => true
  | _ => false

/-- A JSON number that is an integer of 64 bits written without fraction or
exponent. -/
def JSON.isInt : JSON → Bool
  | .number lit => (ParseInt lit).isSome
  | _ => false

/-- The string a member holds; `d` when there is no such member (and the
empty string for a member that holds no string). -/
def stringOr (d : GoString) : Option JSON → GoString
  | none => d
  | some (.string s) => s
  | some _ => []

/-- The integer a member holds; `d` when there is no such member (and zero for
a member that holds no integer). -/
def intOr (d : Int) : Option JSON → Int
  | none => d
  | some (.number lit) => (ParseInt lit).getD 0
  | some _ => 0

/-- The members of a message summary that name a field hold a value of the
field's type. -/
def fitsMessageItem (nm : Naming) : List (GoString × JSON) → Bool
  | [] => true
  | (key, j) :: rest =>
    (match nm messageItemFields key with
      | some 0 => j.isInt
      | some 1 => j.isString
      | some 2 => j.isString
      | some 3 => j.isString
      | _ => true) && fitsMessageItem nm rest

/-- The message summary an object stands for, starting from `v`. -/
def messageItemOf (nm : Naming) (members : List (GoString × JSON)) (v : MessageItem) :
    MessageItem :=
  { ID := intOr v.ID (lastValue nm messageItemFields 0 members),
    From := stringOr v.From (lastValue nm messageItemFields 1 members),
    Subject := stringOr v.Subject (lastValue nm messageItemFields 2 members),
    Date := stringOr v.Date (lastValue nm messageItemFields 3 members) }

/-- An element of the array of message summaries: an object that fits. -/
def JSON.fitsMessageItem (nm : Naming) : JSON → Bool
  | .object members => Onesecmail.fitsMessageItem nm members
  | _ => false

/-- The message summary an element of the array stands for. -/
def JSON.messageItem (nm : Naming) : JSON → MessageItem
  | .object members => messageItemOf nm members MessageItem.zero
  | _ => MessageItem.zero

/-- The members of an attachment that name a field hold a value of the
field's type. -/
def fitsAttachment (nm : Naming) : List (GoString × JSON) → Bool
  | [] => true
  | (key, j) :: rest =>
    (match nm attachmentFields key with
      | some 0 => j.isString
      | some 1 => j.isString
      | some 2 => j.isInt
      | _ => true) && fitsAttachment nm rest

/-- The attachment an object stands for, starting from `v`. -/
def attachmentOf (nm : Naming) (members : List (GoString × JSON)) (v : Attachment) :
    Attachment :=
  { ContentType := stringOr v.ContentType (lastValue nm attachmentFields 0 members),
    Filename := stringOr v.Filename (lastValue nm attachmentFields 1 members),
    Size := intOr v.Size (lastValue nm attachmentFields 2 members) }

/-- An element of the array of attachments: an object that fits. -/
def JSON.fitsAttachment (nm : Naming) : JSON → Bool
  | .object members => Onesecmail.fitsAttachment nm members
  | _ => false

/-- The attachment an element of the array stands for. -/
def JSON.attachment (nm : Naming) : JSON → Attachment
  | .object members => attachmentOf nm members Attachment.zero
  | _ => Attachment.zero

/-- A value of the type of the field `attachments`: an array of attachments. -/
def JSON.fitsAttachments (nm : Naming) : JSON → Bool
  | .array elems => elems.all (JSON.fitsAttachment nm)
  | _ => false

/-- The attachments a member holds, in the order of the array; `d` when there
is no such member (and nil for a member that holds no array). -/
def attachmentsOr (nm : Naming) (d : GoSlice Attachment) : Option JSON → GoSlice Attachment
  | none => d
  | some (.array elems) => some (elems.map (JSON.attachment nm))
  | some _ => none

/-- The members of a message that name a field hold a value of the field's
type. -/
def fitsMessageMembers (nm : Naming) : List (GoString × JSON) → Bool
  | [] => true
  | (key, j) :: rest =>
    (match nm messageFields key with
      | some 0 => j.isInt
      | some 1 => j.isString
      | some 2 => j.isString
      | some 3 => j.isString
      | some 4 => j.fitsAttachments nm
      | some 5 => j.isString
      | some 6 => j.isString
      | some 7 => j.isString
      | _ => true) && fitsMessageMembers nm rest

/-- A message object matches the schema: its members that name a field hold a
value of the field's type, and at most one member names `attachments`. -/
def fitsMessage (nm : Naming) (members : List (GoString × JSON)) : Bool :=
  fitsMessageMembers nm members && decide (countNaming nm messageFields 4 members ≤ 1)

/-- The message an object stands for, starting from `v`. -/
def messageOf (nm : Naming) (members : List (GoString × JSON)) (v : Message) : Message :=
  { ID := intOr v.ID (lastValue nm messageFields 0 members),
    From := stringOr v.From (lastValue nm messageFields 1 members),
    Subject := stringOr v.Subject (lastValue nm messageFields 2 members),
    Date := stringOr v.Date (lastValue nm messageFields 3 members),
    Attachments := attachmentsOr nm v.Attachments (lastValue nm messageFields 4 members),
    Body := stringOr v.Body (lastValue nm messageFields 5 members),
    TextBody := stringOr v.TextBody (lastValue nm messageFields 6 members),
    HTMLBody := stringOr v.HTMLBody (lastValue nm messageFields 7 members) }

/-- The first JSON value of a body as the decoder reads it, when the body has
one. -/
def firstValue (body : List Nat) : Option JSON :=
  match readValue body with
  | .ok n => readTree (body.take n)
  | .error _ => none

/-- The members of the object a body starts with (none when it does not start
with an object). -/
def firstObject (body : List Nat) : List (GoString × JSON) :=
  match firstValue body with
  | some (.object members) => members
  | _ => []

/-! ## Malformed bodies, in the words of the specification

A body is malformed when no first JSON value can be read from it, or when that
value is not of the shape of the target.  In the shape, `null` stands for a
value that is missing: it is allowed wherever a value is expected. -/

/-- The JSON value `null`. -/
def JSON.isNull : JSON → Bool
  | .null => true
  | _ => false

/-- A string, or `null`. -/
def JSON.shapedString (j : JSON) : Bool :=
  j.isString || j.isNull

/-- An integer of 64 bits written without fraction or exponent, or `null`. -/
def JSON.shapedInt (j : JSON) : Bool :=
  j.isInt || j.isNull

/-- An array of strings, or `null`. -/
def JSON.shapedStrings : JSON → Bool
  | .array elems => elems.all JSON.shapedString
  | .null => true
  | _ => false

/-- The members of a message summary that name a field are of its shape. -/
def shapedMessageItemMembers (nm : Naming) : List (GoString × JSON) → Bool
  | [] => true
  | (key, j) :: rest =>
    (match nm messageItemFields key with
      | some 0 => j.shapedInt
      | some 1 => j.shapedString
      | some 2 => j.shapedString
      | some 3 => j.shapedString
      | _ => true) && shapedMessageItemMembers nm rest

/-- A message summary: an object whose members are of the shape, or `null`. -/
def JSON.shapedMessageItem (nm : Naming) : JSON → Bool
  | .object members => shapedMessageItemMembers nm members
  | .null => true
  | _ => false

/-- An array of message summaries, or `null`. -/
def JSON.shapedMessageItems (nm : Naming) : JSON → Bool
  | .array elems => elems.all (JSON.shapedMessageItem nm)
  | .null => true
  | _ => false

/-- The members of an attachment that name a field are of its shape. -/
def shapedAttachmentMembers (nm : Naming) : List (GoString × JSON) → Bool
  | [] => true
  | (key, j) :: rest =>
    (match nm attachmentFields key with
      | some 0 => j.shapedString
      | some 1 => j.shapedString
      | some 2 => j.shapedInt
      | _ => true) && shapedAttachmentMembers nm rest

/-- An attachment: an object whose members are of the shape, or `null`. -/
def JSON.shapedAttachment (nm : Naming) : JSON → Bool
  | .object members => shapedAttachmentMembers nm members
  | .null => true
  | _ => false

/-- An array of attachments, or `null`. -/
def JSON.shapedAttachments (nm : Naming) : JSON → Bool
  | .array elems => elems.all (JSON.shapedAttachment nm)
  | .null => true
  | _ => false

/-- The members of a message that name a field are of its shape. -/
def shapedMessageMembers (nm : Naming) : List (GoString × JSON) → Bool
  | [] => true
  | (key, j) :: rest =>
    (match nm messageFields key with
      | some 0 => j.shapedInt
      | some 1 => j.shapedString
      | some 2 => j.shapedString
      | some 3 => j.shapedString
      | some 4 => j.shapedAttachments nm
      | some 5 => j.shapedString
      | some 6 => j.shapedString
      | some 7 => j.shapedString
      | _ => true) && shapedMessageMembers nm rest

/-- A message: an object whose members are of the shape, or `null`. -/
def JSON.shapedMessage (nm : Naming) : JSON → Bool
  | .object members => shapedMessageMembers nm members
  | .null => true
  | _ => false

/-- A body is malformed for a shape when no first JSON value can be read from
it, or when that value is not of the shape. -/
def malformed (shaped : JSON → Bool) (body : List Nat) : Bool :=
  match firstValue body with
  | some j => !shaped j
  | none => true

/-! ## Calls through a `*Client` -/

/-- A method call `c.m(...)` on a pointer `c *Client`; `none` is the nil
pointer, on which every method of the package panics at its first access to a
field (`c.BaseURL` in `urlBase`, which the five operations reach through
`c.url` before any request; `c.VerboseLog` in `verboseLog`). -/
def viaPointer {E κ σ α : Type} (c : Option (Client E κ σ)) (method : Client E κ σ → Exec α) :
    Exec α :=
  match c with
  | none => .panicked
  | some client => method client

/-! ## Hooks that panic

A `Log` is a hook that returns.  A Go function may panic instead, and
`verboseLog` calls the hook without recovering (line 77), so that a panic of
the hook is a panic of the call. -/

/-- A hook that may panic instead of returning: `none` is the panic. -/
def PanickingLog (τ : Type) : Type := List LogValue → τ → Option τ

/-- A hook that may panic, as a `Log` on the states `Option τ`: the state
`none` records that a call of the hook has panicked, and stays. -/
def PanickingLog.toLog {τ : Type} (f : PanickingLog τ) : Log (Option τ) :=
  fun v s => s.bind (f v)

/-- The outcome of an operation run with such a hook: it panics when a call of
the hook has panicked, whatever the code after that call would have done. -/
def Exec.withHookPanics {α τ : Type} : Exec (α × Option τ) → Exec (α × τ)
  | .panicked => .panicked
  | .returned (_, none) => .panicked
  | .returned (a, some s) => .returned (a, s)

/-- A hook that records the argument list of each of its calls, in order. -/
def recordCalls : Log (List (List LogValue)) :=
  fun v calls => calls ++ [v]

/-- The hook was called with the value `x` among its arguments. -/
def CalledWith (calls : List (List LogValue)) (x : LogValue) : Prop :=
  ∃ call ∈ calls, x ∈ call

/-- A mock server: every request is answered with the given status and body. -/
def mockServer (status : Int) (body : List Nat) : Request Unit → Except Nat (Response Nat) :=
  fun _ => .ok { StatusCode := status, Body := { buf := some body, err := none } }

/-- A client of the mock server with the default base URL and a recording hook. -/
def mockClient (status : Int) (body : List Nat) : Client Nat Unit (List (List LogValue)) :=
  { HTTPClient := mockServer status body, BaseURL := [], VerboseLog := some recordCalls }

/-- A client whose transport fails every request with the error `e`. -/
def failingClient (e : Nat) : Client Nat Unit (List (List LogValue)) :=
  { HTTPClient := fun _ => .error e, BaseURL := [], VerboseLog := none }

/-- A client of the mock server whose hook panics on every call. -/
def panickingHookClient (status : Int) (body : List Nat) : Client Nat Unit (Option Unit) :=
  { HTTPClient := mockServer status body, BaseURL := [],
    VerboseLog := some (PanickingLog.toLog (fun _ _ => none)) }

/-- A client of the mock server whose hook may panic but returns on every call,
counting its calls. -/
def countingHookClient (status : Int) (body : List Nat) : Client Nat Unit (Option Nat) :=
  { HTTPClient := mockServer status body, BaseURL := [],
    VerboseLog := some (PanickingLog.toLog (fun _ n => some (n + 1))) }

/-- The Go library with a `http.NewRequest` that accepts every URL. -/
def mockLib : Lib Nat :=
  goLib (str "go1.21.0") (fun _ _ => none) (fun _ v => (v, none))

end Onesecmail

/-! # Theorems -/

namespace Onesecmail

section Core

variable {E κ σ : Type}

/-! ## What `doReqURL` does on each path -/

theorem doReqURL_of_fails (lib : Lib E) (c : Client E κ σ) (ctx : Option κ) (u : GoString) (e : E)
    (t : GoType) (v : t.pointee) (raw : Bool) (s : σ) (h : TransportFails lib c ctx u e) :
    c.doReqURL lib ctx u t v raw s =
      .returned (some (.ext e), v, c.verboseLog [.string (str "fetching"), .string u] s) := by
  rcases h with h | ⟨h1, k, rfl, h2⟩ | ⟨h1, k, resp, rfl, h2, h3⟩
  · simp [Client.doReqURL, h]
  · simp only [requestFor] at h2
    simp [Client.doReqURL, h1, h2]
  · simp only [requestFor] at h2
    simp [Client.doReqURL, h1, h2, h3]

theorem doReqURL_of_raw (lib : Lib E) (c : Client E κ σ) (ctx : Option κ) (u : GoString)
    (resp : Response E) (v : GoSlice Nat) (s : σ) (h : Completes lib c ctx u resp) :
    c.doReqURL lib ctx u .ptrSliceByte v true s =
      .returned (none, resp.Body.buf, c.verboseLog [.string (str "fetching"), .string u] s) := by
  obtain ⟨h1, k, rfl, h2, h3⟩ := h
  simp only [requestFor] at h2
  simp [Client.doReqURL, h1, h2, h3]

theorem doReqURL_of_bad_status (lib : Lib E) (c : Client E κ σ) (ctx : Option κ) (u : GoString)
    (resp : Response E) (t : GoType) (v : t.pointee) (s : σ)
    (h : Completes lib c ctx u resp) (hs : resp.StatusCode ≠ 200) :
    c.doReqURL lib ctx u t v false s =
      .returned (some (.ErrBadStatusCode resp.Body.buf.elems resp.StatusCode), v,
        c.verboseLog [.string (str "Invalid status code"), .int resp.StatusCode]
          (c.verboseLog [.string (str "fetching"), .string u] s)) := by
  obtain ⟨h1, k, rfl, h2, h3⟩ := h
  simp only [requestFor] at h2
  simp [Client.doReqURL, h1, h2, h3, hs]

theorem doReqURL_of_ok (lib : Lib E) (c : Client E κ σ) (ctx : Option κ) (u : GoString)
    (resp : Response E) (t : GoType) (v : t.pointee) (s : σ)
    (h : Completes lib c ctx u resp) (hs : resp.StatusCode = 200) :
    c.doReqURL lib ctx u t v false s =
      .returned
        ((lib.Decode t resp.Body.buf.elems v).2.map (.ErrNotExpectedJSON resp.Body.buf.elems),
          (lib.Decode t resp.Body.buf.elems v).1,
          c.verboseLog [.string (str "Fetch result"), .string resp.Body.buf.elems]
            (c.verboseLog [.string (str "fetching"), .string u] s)) := by
  obtain ⟨h1, k, rfl, h2, h3⟩ := h
  simp only [requestFor] at h2
  simp only [Client.doReqURL, h1, h2, h3, hs]
  rcases hd : lib.Decode t resp.Body.buf.elems v with ⟨v1, _ | err⟩ <;> simp

theorem doReqURL_json_returns (lib : Lib E) (c : Client E κ σ) (k : κ) (u : GoString)
    (t : GoType) (v : t.pointee) (s : σ) :
    ∃ err v1 s1, c.doReqURL lib (some k) u t v false s = .returned (err, v1, s1) := by
  unfold Client.doReqURL
  simp only []
  split
  · exact ⟨_, _, _, rfl⟩
  · split
    · exact ⟨_, _, _, rfl⟩
    · split
      · exact ⟨_, _, _, rfl⟩
      · simp only [Bool.false_eq_true, if_false]
        split
        · exact ⟨_, _, _, rfl⟩
        · split <;> exact ⟨_, _, _, rfl⟩

theorem doReqURL_bytes_returns (lib : Lib E) (c : Client E κ σ) (k : κ) (u : GoString)
    (v : GoSlice Nat) (raw : Bool) (s : σ) :
    ∃ err v1 s1, c.doReqURL lib (some k) u .ptrSliceByte v raw s = .returned (err, v1, s1) := by
  cases raw
  · exact doReqURL_json_returns lib c k u .ptrSliceByte v s
  · unfold Client.doReqURL
    simp only []
    split
    · exact ⟨_, _, _, rfl⟩
    · split
      · exact ⟨_, _, _, rfl⟩
      · split
        · exact ⟨_, _, _, rfl⟩
        · exact ⟨_, _, _, rfl⟩

theorem doReqURL_nil_context (lib : Lib E) (c : Client E κ σ) (u : GoString) (t : GoType)
    (v : t.pointee) (raw : Bool) (s : σ) (h : lib.NewRequest (str "GET") u = none) :
    c.doReqURL lib none u t v raw s = .panicked := by
  simp [Client.doReqURL, h]

end Core

end Onesecmail

namespace Onesecmail
section Ops
variable {E κ σ : Type}

/-! ## The URL and the outcome of each operation -/

theorem QueryEscape_digit (d : Nat) (hd : d < 10) (cs : List Nat) :
    QueryEscape ((48 + d) :: cs) = (48 + d) :: QueryEscape cs := by
  have h1 : ¬ (48 + d = 32) := by omega
  have h2 : shouldEscape (48 + d) = false := by
    unfold shouldEscape
    rw [if_pos (Or.inr (Or.inr ⟨by omega, by omega⟩))]
  rw [QueryEscape, if_neg h1, h2]
  rfl

theorem QueryEscape_itoaDigits (fuel n : Nat) (acc : List Nat) (h : QueryEscape acc = acc) :
    QueryEscape (itoaDigits fuel n acc) = itoaDigits fuel n acc := by
  induction fuel generalizing n acc with
  | zero => simpa [itoaDigits] using h
  | succ k ih =>
    unfold itoaDigits
    split
    · rename_i hlt
      rw [QueryEscape_digit n hlt, h]
    · apply ih
      rw [QueryEscape_digit _ (Nat.mod_lt _ (by decide)), h]

theorem QueryEscape_Itoa (i : Int) : QueryEscape (Itoa i) = Itoa i := by
  unfold Itoa
  split
  · have := QueryEscape_itoaDigits (i.natAbs + 1) i.natAbs [] rfl
    simp [QueryEscape, shouldEscape, this]
  · exact QueryEscape_itoaDigits _ _ _ rfl

theorem url_GenRandomMailbox (c : Client E κ σ) (count : Int) :
    c.url (Values.Set (Values.Set [] (str "action") (str "genRandomMailbox")) (str "count")
      (Itoa count)) = c.urlBase ++ (str "?action=genRandomMailbox&count=" ++ Itoa count) := by
  have hp : Values.Set (Values.Set [] (str "action") (str "genRandomMailbox")) (str "count")
      (Itoa count) = [(str "action", [str "genRandomMailbox"]), (str "count", [Itoa count])] :=
    rfl
  rw [hp]
  simp only [Client.url, Values.Encode, sortByKey, insertByKey, encodeSorted, encodePairs,
    List.append_nil, List.append_assoc, List.cons_append, List.nil_append, if_true, if_false,
    Bool.false_eq_true, QueryEscape_Itoa]
  rfl

theorem url_GetDomainList (c : Client E κ σ) :
    c.url (Values.Set [] (str "action") (str "getDomainList")) =
      c.urlBase ++ str "?action=getDomainList" := by
  have hp : Values.Set [] (str "action") (str "getDomainList") =
      [(str "action", [str "getDomainList"])] := rfl
  rw [hp]
  simp only [Client.url, Values.Encode, sortByKey, insertByKey, encodeSorted, encodePairs,
    List.append_nil, List.append_assoc, List.cons_append, List.nil_append, if_true, if_false,
    Bool.false_eq_true]
  rfl

theorem url_GetMessages (c : Client E κ σ) (login domain : GoString) :
    c.url (Values.Set (Values.Set (Values.Set [] (str "action") (str "getMessages"))
      (str "login") login) (str "domain") domain) =
      c.urlBase ++ (str "?action=getMessages&domain=" ++ (QueryEscape domain ++
        (str "&login=" ++ QueryEscape login))) := by
  have hp : Values.Set (Values.Set (Values.Set [] (str "action") (str "getMessages"))
      (str "login") login) (str "domain") domain =
      [(str "action", [str "getMessages"]), (str "login", [login]), (str "domain", [domain])] :=
    rfl
  rw [hp]
  simp only [Client.url, Values.Encode, sortByKey, insertByKey, encodeSorted, encodePairs,
    List.append_nil, List.append_assoc, List.cons_append, List.nil_append, if_true, if_false,
    Bool.false_eq_true]
  rfl

theorem url_ReadMessage (c : Client E κ σ) (login domain : GoString) (id : Int) :
    c.url (Values.Set (Values.Set (Values.Set (Values.Set [] (str "action") (str "readMessage"))
      (str "login") login) (str "domain") domain) (str "id") (Itoa id)) =
      c.urlBase ++ (str "?action=readMessage&domain=" ++ (QueryEscape domain ++
        (str "&id=" ++ (Itoa id ++ (str "&login=" ++ QueryEscape login))))) := by
  have hp : Values.Set (Values.Set (Values.Set (Values.Set [] (str "action")
      (str "readMessage")) (str "login") login) (str "domain") domain) (str "id") (Itoa id) =
      [(str "action", [str "readMessage"]), (str "login", [login]), (str "domain", [domain]),
        (str "id", [Itoa id])] := rfl
  rw [hp]
  simp only [Client.url, Values.Encode, sortByKey, insertByKey, encodeSorted, encodePairs,
    List.append_nil, List.append_assoc, List.cons_append, List.nil_append, if_true, if_false,
    Bool.false_eq_true, QueryEscape_Itoa]
  rfl

theorem url_DownloadAttachment (c : Client E κ σ) (login domain : GoString) (id : Int)
    (filename : GoString) :
    c.url (Values.Set (Values.Set (Values.Set (Values.Set (Values.Set [] (str "action")
      (str "download")) (str "login") login) (str "domain") domain) (str "id") (Itoa id))
      (str "file") filename) =
      c.urlBase ++ (str "?action=download&domain=" ++ (QueryEscape domain ++
        (str "&file=" ++ (QueryEscape filename ++ (str "&id=" ++ (Itoa id ++
          (str "&login=" ++ QueryEscape login))))))) := by
  have hp : Values.Set (Values.Set (Values.Set (Values.Set (Values.Set [] (str "action")
      (str "download")) (str "login") login) (str "domain") domain) (str "id") (Itoa id))
      (str "file") filename =
      [(str "action", [str "download"]), (str "login", [login]), (str "domain", [domain]),
        (str "id", [Itoa id]), (str "file", [filename])] := rfl
  rw [hp]
  simp only [Client.url, Values.Encode, sortByKey, insertByKey, encodeSorted, encodePairs,
    List.append_nil, List.append_assoc, List.cons_append, List.nil_append, if_true, if_false,
    Bool.false_eq_true, QueryEscape_Itoa]
  rfl

theorem GenRandomMailbox_eq (lib : Lib E) (c : Client E κ σ) (ctx : Option κ) (count : Int) (s : σ) :
    c.GenRandomMailbox lib ctx count s =
      deliver none (fun v => v) (c.doReqURL lib ctx
        (c.urlBase ++ (str "?action=genRandomMailbox&count=" ++ Itoa count))
        .ptrSliceString none false s) := by
  rw [← url_GenRandomMailbox]
  unfold Client.GenRandomMailbox
  simp only []
  rcases h : c.doReqURL lib ctx _ .ptrSliceString none false s with _ | ⟨_ | err, v, s1⟩ <;> rfl

theorem GetDomainList_eq (lib : Lib E) (c : Client E κ σ) (ctx : Option κ) (s : σ) :
    c.GetDomainList lib ctx s =
      deliver none (fun v => v) (c.doReqURL lib ctx (c.urlBase ++ str "?action=getDomainList")
        .ptrSliceString none false s) := by
  rw [← url_GetDomainList]
  unfold Client.GetDomainList
  simp only []
  rcases h : c.doReqURL lib ctx _ .ptrSliceString none false s with _ | ⟨_ | err, v, s1⟩ <;> rfl

theorem GetMessages_eq (lib : Lib E) (c : Client E κ σ) (ctx : Option κ) (login domain : GoString)
    (s : σ) :
    c.GetMessages lib ctx login domain s =
      deliver none (fun v => v) (c.doReqURL lib ctx
        (c.urlBase ++ (str "?action=getMessages&domain=" ++ (QueryEscape domain ++
          (str "&login=" ++ QueryEscape login))))
        .ptrSliceMessageItem none false s) := by
  rw [← url_GetMessages]
  unfold Client.GetMessages
  simp only []
  rcases h : c.doReqURL lib ctx _ .ptrSliceMessageItem none false s with
    _ | ⟨_ | err, v, s1⟩ <;> rfl

theorem ReadMessage_eq (lib : Lib E) (c : Client E κ σ) (ctx : Option κ) (login domain : GoString)
    (id : Int) (s : σ) :
    c.ReadMessage lib ctx login domain id s =
      deliver none some (c.doReqURL lib ctx
        (c.urlBase ++ (str "?action=readMessage&domain=" ++ (QueryEscape domain ++
          (str "&id=" ++ (Itoa id ++ (str "&login=" ++ QueryEscape login))))))
        .ptrMessage Message.zero false s) := by
  rw [← url_ReadMessage]
  unfold Client.ReadMessage
  simp only []
  rcases h : c.doReqURL lib ctx _ .ptrMessage Message.zero false s with
    _ | ⟨_ | err, v, s1⟩ <;> rfl

theorem DownloadAttachment_eq (lib : Lib E) (c : Client E κ σ) (ctx : Option κ)
    (login domain : GoString) (id : Int) (filename : GoString) (s : σ) :
    c.DownloadAttachment lib ctx login domain id filename s =
      deliver none (fun v => v) (c.doReqURL lib ctx
        (c.urlBase ++ (str "?action=download&domain=" ++ (QueryEscape domain ++
          (str "&file=" ++ (QueryEscape filename ++ (str "&id=" ++ (Itoa id ++
            (str "&login=" ++ QueryEscape login))))))))
        .ptrSliceByte none true s) := by
  rw [← url_DownloadAttachment]
  unfold Client.DownloadAttachment
  simp only []
  rcases h : c.doReqURL lib ctx _ .ptrSliceByte none true s with _ | ⟨_ | err, v, s1⟩ <;> rfl

end Ops
end Onesecmail

namespace Onesecmail

section Claims

variable {E κ σ : Type}

/-! ## Status codes and transport errors -/

/-- Claim C1: in JSON mode, when the exchange completes with a status code
other than 200, `doReqURL` returns an `ErrBadStatusCode` carrying that status
code and the body text verbatim; the target is left as it was and the outcome
is the same whatever the JSON decoder would do, so no decoding is attempted. -/
theorem bad_status_yields_ErrBadStatusCode (lib : Lib E) (c : Client E κ σ) (ctx : Option κ)
    (u : GoString) (resp : Response E) (t : GoType) (v : t.pointee) (s : σ)
    (h : Completes lib c ctx u resp) (hs : resp.StatusCode ≠ 200) :
    c.doReqURL lib ctx u t v false s =
        .returned (some (.ErrBadStatusCode resp.Body.buf.elems resp.StatusCode), v,
          c.verboseLog [.string (str "Invalid status code"), .int resp.StatusCode]
            (c.verboseLog [.string (str "fetching"), .string u] s)) ∧
      ∀ dec, c.doReqURL { lib with Decode := dec } ctx u t v false s =
        c.doReqURL lib ctx u t v false s := by
  refine ⟨doReqURL_of_bad_status lib c ctx u resp t v s h hs, fun dec => ?_⟩
  have h' : Completes { lib with Decode := dec } c ctx u resp := h
  rw [doReqURL_of_bad_status lib c ctx u resp t v s h hs,
    doReqURL_of_bad_status _ c ctx u resp t v s h' hs]

/-- Claim C3: in raw-bytes mode, when the exchange completes, whatever the
status code, `doReqURL` stores the bytes of the body as they are and returns a
nil error, and `DownloadAttachment` returns those bytes with a nil error. -/
theorem raw_mode_returns_body (lib : Lib E) (c : Client E κ σ) (ctx : Option κ) (u : GoString)
    (resp : Response E) (s : σ) (h : Completes lib c ctx u resp) :
    (∀ v, c.doReqURL lib ctx u .ptrSliceByte v true s =
        .returned (none, resp.Body.buf, c.verboseLog [.string (str "fetching"), .string u] s)) ∧
      ∀ login domain id filename,
        u = c.urlBase ++ (str "?action=download&domain=" ++ (QueryEscape domain ++
          (str "&file=" ++ (QueryEscape filename ++ (str "&id=" ++ (Itoa id ++
            (str "&login=" ++ QueryEscape login))))))) →
        c.DownloadAttachment lib ctx login domain id filename s =
          .returned ((resp.Body.buf, none),
            c.verboseLog [.string (str "fetching"), .string u] s) := by
  refine ⟨fun v => doReqURL_of_raw lib c ctx u resp v s h, ?_⟩
  intro login domain id filename hu
  rw [DownloadAttachment_eq, ← hu, doReqURL_of_raw lib c ctx u resp none s h]
  rfl

/-- Claim C4: when building the request, performing the HTTP call or reading
the body fails with the error `e`, `doReqURL` returns `e` itself in either
mode and for every target, and each of the five operations, when that is the
URL it requests, returns a nil value and the same `e`. -/
theorem transport_error_propagates (lib : Lib E) (c : Client E κ σ) (ctx : Option κ) (u : GoString)
    (e : E) (s : σ) (h : TransportFails lib c ctx u e) :
    (∀ (t : GoType) (v : t.pointee) (raw : Bool), c.doReqURL lib ctx u t v raw s =
        .returned (some (.ext e), v, c.verboseLog [.string (str "fetching"), .string u] s)) ∧
      (∀ count, u = c.urlBase ++ (str "?action=genRandomMailbox&count=" ++ Itoa count) →
        c.GenRandomMailbox lib ctx count s =
          .returned ((none, some (.ext e)),
            c.verboseLog [.string (str "fetching"), .string u] s)) ∧
      (u = c.urlBase ++ str "?action=getDomainList" →
        c.GetDomainList lib ctx s =
          .returned ((none, some (.ext e)),
            c.verboseLog [.string (str "fetching"), .string u] s)) ∧
      (∀ login domain,
        u = c.urlBase ++ (str "?action=getMessages&domain=" ++ (QueryEscape domain ++
          (str "&login=" ++ QueryEscape login))) →
        c.GetMessages lib ctx login domain s =
          .returned ((none, some (.ext e)),
            c.verboseLog [.string (str "fetching"), .string u] s)) ∧
      (∀ login domain id,
        u = c.urlBase ++ (str "?action=readMessage&domain=" ++ (QueryEscape domain ++
          (str "&id=" ++ (Itoa id ++ (str "&login=" ++ QueryEscape login))))) →
        c.ReadMessage lib ctx login domain id s =
          .returned ((none, some (.ext e)),
            c.verboseLog [.string (str "fetching"), .string u] s)) ∧
      (∀ login domain id filename,
        u = c.urlBase ++ (str "?action=download&domain=" ++ (QueryEscape domain ++
          (str "&file=" ++ (QueryEscape filename ++ (str "&id=" ++ (Itoa id ++
            (str "&login=" ++ QueryEscape login))))))) →
        c.DownloadAttachment lib ctx login domain id filename s =
          .returned ((none, some (.ext e)),
            c.verboseLog [.string (str "fetching"), .string u] s)) := by
  have hd : ∀ (t : GoType) (v : t.pointee) (raw : Bool), c.doReqURL lib ctx u t v raw s =
      .returned (some (.ext e), v, c.verboseLog [.string (str "fetching"), .string u] s) :=
    fun t v raw => doReqURL_of_fails lib c ctx u e t v raw s h
  refine ⟨hd, ?_, ?_, ?_, ?_, ?_⟩
  · intro count hu
    rw [GenRandomMailbox_eq, ← hu, hd]; rfl
  · intro hu
    rw [GetDomainList_eq, ← hu, hd]; rfl
  · intro login domain hu
    rw [GetMessages_eq, ← hu, hd]; rfl
  · intro login domain id hu
    rw [ReadMessage_eq, ← hu, hd]; rfl
  · intro login domain id filename hu
    rw [DownloadAttachment_eq, ← hu, hd]; rfl

/-! ## The URLs of the operations -/

/-- Claim C5: the base of every URL is `Client.BaseURL`, or `DefaultBaseURL`
when that is empty; each operation runs `doReqURL` once, on the URL
`<base>?<query>` whose query holds exactly the parameters of its row of the
table, escaped, `action` first, with numbers in decimal and values passed
through as given; only `DownloadAttachment` asks for raw bytes; and the request
`doReqURL` sends is a GET of exactly the URL it is given (its outcome depends
on the transport through the answer to that one request only). -/
theorem operations_request_urls (lib : Lib E) (c : Client E κ σ) (ctx : Option κ) (s : σ) :
    (c.urlBase = if c.BaseURL = [] then DefaultBaseURL else c.BaseURL) ∧
      (∀ count, c.GenRandomMailbox lib ctx count s =
        deliver none (fun v => v) (c.doReqURL lib ctx
          (c.urlBase ++ (str "?action=genRandomMailbox&count=" ++ Itoa count))
          .ptrSliceString none false s)) ∧
      (c.GetDomainList lib ctx s =
        deliver none (fun v => v) (c.doReqURL lib ctx (c.urlBase ++ str "?action=getDomainList")
          .ptrSliceString none false s)) ∧
      (∀ login domain, c.GetMessages lib ctx login domain s =
        deliver none (fun v => v) (c.doReqURL lib ctx
          (c.urlBase ++ (str "?action=getMessages&domain=" ++ (QueryEscape domain ++
            (str "&login=" ++ QueryEscape login))))
          .ptrSliceMessageItem none false s)) ∧
      (∀ login domain id, c.ReadMessage lib ctx login domain id s =
        deliver none some (c.doReqURL lib ctx
          (c.urlBase ++ (str "?action=readMessage&domain=" ++ (QueryEscape domain ++
            (str "&id=" ++ (Itoa id ++ (str "&login=" ++ QueryEscape login))))))
          .ptrMessage Message.zero false s)) ∧
      (∀ login domain id filename, c.DownloadAttachment lib ctx login domain id filename s =
        deliver none (fun v => v) (c.doReqURL lib ctx
          (c.urlBase ++ (str "?action=download&domain=" ++ (QueryEscape domain ++
            (str "&file=" ++ (QueryEscape filename ++ (str "&id=" ++ (Itoa id ++
              (str "&login=" ++ QueryEscape login))))))))
          .ptrSliceByte none true s)) ∧
      (∀ (k : κ) (u : GoString),
        (requestFor lib k u).URL = u ∧ (requestFor lib k u).Method = str "GET") ∧
      ∀ (c1 : Client E κ σ) (k : κ) (u : GoString) (t : GoType) (v : t.pointee) (raw : Bool),
        c1.VerboseLog = c.VerboseLog →
        c1.HTTPClient (requestFor lib k u) = c.HTTPClient (requestFor lib k u) →
        c1.doReqURL lib (some k) u t v raw s = c.doReqURL lib (some k) u t v raw s := by
  refine ⟨rfl, fun _ => GenRandomMailbox_eq .., GetDomainList_eq .., fun _ _ => GetMessages_eq ..,
    fun _ _ _ => ReadMessage_eq .., fun _ _ _ _ => DownloadAttachment_eq ..,
    fun _ _ => ⟨rfl, rfl⟩, ?_⟩
  intro c1 k u t v raw hlog hreq
  simp only [requestFor] at hreq
  simp only [Client.doReqURL, Client.verboseLog, hlog, hreq]

/-! ## The logging hook -/

/-- Claim C7: running `doReqURL` with any hook and running it with no hook
give the same returned error and the same target (and panic alike), for every
URL, mode, transport and target; with no hook the state the hook would write
to is left untouched. -/
theorem hook_does_not_alter_outcome (lib : Lib E) (c : Client E κ σ) (hook : Log σ)
    (ctx : Option κ) (u : GoString) (t : GoType) (v : t.pointee) (raw : Bool) (s : σ) :
    Exec.visible (Client.doReqURL lib { c with VerboseLog := some hook } ctx u t v raw s) =
        Exec.visible (Client.doReqURL lib { c with VerboseLog := none } ctx u t v raw s) ∧
      ∀ r, Client.doReqURL lib { c with VerboseLog := none } ctx u t v raw s = .returned r →
        r.2.2 = s := by
  unfold Client.doReqURL
  simp only [Client.verboseLog]
  constructor
  · split
    · rfl
    · split
      · rfl
      · split
        · rfl
        · split
          · rfl
          · split
            · split <;> rfl
            · split
              · rfl
              · split <;> rfl
  · intro r
    split
    · rintro ⟨⟩; rfl
    · split
      · intro h; cases h
      · split
        · rintro ⟨⟩; rfl
        · split
          · rintro ⟨⟩; rfl
          · split
            · split
              · rintro ⟨⟩; rfl
              · intro h; cases h
            · split
              · rintro ⟨⟩; rfl
              · split <;> (rintro ⟨⟩; rfl)

end Claims

end Onesecmail

namespace Onesecmail

section Panics

variable {E κ σ : Type}

theorem doReqURL_state_invariant (lib : Lib E) (c : Client E κ σ) (ctx : Option κ)
    (u : GoString) (t : GoType) (v : t.pointee) (raw : Bool) (s : σ) (P : σ → Prop)
    (hP : ∀ l y, P y → P (c.verboseLog l y)) (hs : P s) (err : Option (Error E))
    (v1 : t.pointee) (s1 : σ)
    (h : c.doReqURL lib ctx u t v raw s = .returned (err, v1, s1)) : P s1 := by
  have h0 := hP [.string (str "fetching"), .string u] s hs
  unfold Client.doReqURL at h
  simp only [] at h
  split at h
  · cases h; exact h0
  · split at h
    · cases h
    · split at h
      · cases h; exact h0
      · split at h
        · cases h; exact h0
        · split at h
          · split at h
            · cases h; exact h0
            · cases h
          · split at h
            · cases h; exact hP _ _ h0
            · split at h
              · cases h; exact hP _ _ h0
              · cases h; exact hP _ _ h0

theorem verboseLog_ne_none {τ : Type} (d : Client E κ (Option τ)) (hook : Option (PanickingLog τ))
    (hd : d.VerboseLog = hook.map PanickingLog.toLog)
    (hf : ∀ f, hook = some f → ∀ l y, f l y ≠ none) (l : List LogValue) (y : Option τ)
    (hy : y ≠ none) : d.verboseLog l y ≠ none := by
  unfold Client.verboseLog
  rw [hd]
  cases hook with
  | none => exact hy
  | some f =>
    cases y with
    | none => exact absurd rfl hy
    | some z => exact hf f rfl l z

theorem deliver_withHookPanics {α β τ : Type} (nil : β) (wrap : α → β)
    (r : Exec (Option (Error E) × α × Option τ))
    (h : ∃ err v s1, r = .returned (err, v, some s1)) :
    ∃ x, (deliver nil wrap r).withHookPanics = .returned x := by
  obtain ⟨err, v, s1, rfl⟩ := h
  cases err with
  | none => exact ⟨_, rfl⟩
  | some e => exact ⟨_, rfl⟩

theorem doReqURL_returns_some {τ : Type} (lib : Lib E) (d : Client E κ (Option τ))
    (hook : Option (PanickingLog τ)) (hd : d.VerboseLog = hook.map PanickingLog.toLog)
    (hf : ∀ f, hook = some f → ∀ l y, f l y ≠ none) (ctx : Option κ) (u : GoString)
    (t : GoType) (v : t.pointee) (raw : Bool) (x : τ)
    (h : ∃ err v1 s1, d.doReqURL lib ctx u t v raw (some x) = .returned (err, v1, s1)) :
    ∃ err v1 s1, d.doReqURL lib ctx u t v raw (some x) = .returned (err, v1, some s1) := by
  obtain ⟨err, v1, s1, h⟩ := h
  have hs := doReqURL_state_invariant lib d ctx u t v raw (some x) (fun y => y ≠ none)
    (fun l y hy => verboseLog_ne_none d hook hd hf l y hy) (by simp) err v1 s1 h
  cases s1 with
  | none => exact absurd rfl hs
  | some z => exact ⟨err, v1, z, h⟩

end Panics

end Onesecmail

namespace Onesecmail

section Claims2

variable {E κ σ : Type}

/-- Claim C8 as amended: with a hook configured and the exchange completed,
the hook is first called with `"fetching"` and the URL; in JSON mode with
status 200 it is then called with `"Fetch result"` and the text of the body; in
JSON mode with another status it is then called with `"Invalid status code"`
and the status code, not with the body; in raw-bytes mode it is not called
again. -/
theorem hook_calls (lib : Lib E) (c : Client E κ σ) (hook : Log σ) (ctx : Option κ) (u : GoString)
    (resp : Response E) (s : σ) (hc : c.VerboseLog = some hook)
    (h : Completes lib c ctx u resp) :
    (∀ v, Exec.hookState (c.doReqURL lib ctx u .ptrSliceByte v true s) =
        some (hook [.string (str "fetching"), .string u] s)) ∧
      (∀ (t : GoType) (v : t.pointee), resp.StatusCode = 200 →
        Exec.hookState (c.doReqURL lib ctx u t v false s) =
          some (hook [.string (str "Fetch result"), .string resp.Body.buf.elems]
            (hook [.string (str "fetching"), .string u] s))) ∧
      ∀ (t : GoType) (v : t.pointee), resp.StatusCode ≠ 200 →
        Exec.hookState (c.doReqURL lib ctx u t v false s) =
          some (hook [.string (str "Invalid status code"), .int resp.StatusCode]
            (hook [.string (str "fetching"), .string u] s)) := by
  refine ⟨fun v => ?_, fun t v hs => ?_, fun t v hs => ?_⟩
  · rw [doReqURL_of_raw lib c ctx u resp v s h]
    simp [Exec.hookState, Client.verboseLog, hc]
  · rw [doReqURL_of_ok lib c ctx u resp t v s h hs]
    simp [Exec.hookState, Client.verboseLog, hc]
  · rw [doReqURL_of_bad_status lib c ctx u resp t v s h hs]
    simp [Exec.hookState, Client.verboseLog, hc]

/-! ## What the operations hand to their callers -/

/-- Claim C9: whatever `doReqURL` returns for the request of an operation,
the operation returns the same error, so one is nil exactly when the other
is; with a non-nil error its value is nil, whatever `doReqURL` left in the
target; with a nil error its value is the target as `doReqURL` left it (for
`ReadMessage`, a pointer to it). -/
theorem operations_return_target_or_nil (lib : Lib E) (c : Client E κ σ) (ctx : Option κ)
    (s : σ) :
    (∀ count err v s1,
        c.doReqURL lib ctx (c.urlBase ++ (str "?action=genRandomMailbox&count=" ++ Itoa count))
          .ptrSliceString none false s = .returned (err, v, s1) →
        ∃ val, c.GenRandomMailbox lib ctx count s = .returned ((val, err), s1) ∧
          (err ≠ none → val = none) ∧ (err = none → val = v)) ∧
      (∀ err v s1,
        c.doReqURL lib ctx (c.urlBase ++ str "?action=getDomainList")
          .ptrSliceString none false s = .returned (err, v, s1) →
        ∃ val, c.GetDomainList lib ctx s = .returned ((val, err), s1) ∧
          (err ≠ none → val = none) ∧ (err = none → val = v)) ∧
      (∀ login domain err v s1,
        c.doReqURL lib ctx (c.urlBase ++ (str "?action=getMessages&domain=" ++
          (QueryEscape domain ++ (str "&login=" ++ QueryEscape login))))
          .ptrSliceMessageItem none false s = .returned (err, v, s1) →
        ∃ val, c.GetMessages lib ctx login domain s = .returned ((val, err), s1) ∧
          (err ≠ none → val = none) ∧ (err = none → val = v)) ∧
      (∀ login domain id err v s1,
        c.doReqURL lib ctx (c.urlBase ++ (str "?action=readMessage&domain=" ++
          (QueryEscape domain ++ (str "&id=" ++ (Itoa id ++ (str "&login=" ++
            QueryEscape login))))))
          .ptrMessage Message.zero false s = .returned (err, v, s1) →
        ∃ val, c.ReadMessage lib ctx login domain id s = .returned ((val, err), s1) ∧
          (err ≠ none → val = none) ∧ (err = none → val = some v)) ∧
      ∀ login domain id filename err v s1,
        c.doReqURL lib ctx (c.urlBase ++ (str "?action=download&domain=" ++
          (QueryEscape domain ++ (str "&file=" ++ (QueryEscape filename ++ (str "&id=" ++
            (Itoa id ++ (str "&login=" ++ QueryEscape login))))))))
          .ptrSliceByte none true s = .returned (err, v, s1) →
        ∃ val,
          c.DownloadAttachment lib ctx login domain id filename s = .returned ((val, err), s1) ∧
          (err ≠ none → val = none) ∧ (err = none → val = v) := by
  have key : ∀ {α β : Type} (wrap : α → β) (nil : β) (r : Exec (Option (Error E) × α × σ))
      (err : Option (Error E)) (v : α) (s1 : σ), r = .returned (err, v, s1) →
      ∃ val, deliver nil wrap r = .returned ((val, err), s1) ∧
        (err ≠ none → val = nil) ∧ (err = none → val = wrap v) := by
    intro α β wrap nil r err v s1 hr
    subst hr
    cases err with
    | none => exact ⟨wrap v, rfl, fun h => absurd rfl h, fun _ => rfl⟩
    | some e => exact ⟨nil, rfl, fun _ => rfl, fun h => by cases h⟩
  refine ⟨fun count err v s1 hr => ?_, fun err v s1 hr => ?_,
    fun login domain err v s1 hr => ?_, fun login domain id err v s1 hr => ?_,
    fun login domain id filename err v s1 hr => ?_⟩
  · rw [GenRandomMailbox_eq]
    exact key (fun v => v) none _ err v s1 hr
  · rw [GetDomainList_eq]
    exact key (fun v => v) none _ err v s1 hr
  · rw [GetMessages_eq]
    exact key (fun v => v) none _ err v s1 hr
  · rw [ReadMessage_eq]
    exact key some none _ err v s1 hr
  · rw [DownloadAttachment_eq]
    exact key (fun v => v) none _ err v s1 hr

/-- Claim C10 as amended: called on a `*Client` that is not nil, with a context
that is not nil and a hook that returns, `doReqURL` panics only at the type
assertion of the raw-bytes branch, when the target is not a `*[]byte`: in JSON
mode it returns for every target, and with a `*[]byte` target it returns in
either mode.  `DownloadAttachment` is the one caller in raw-bytes mode and
passes a `*[]byte`, so each of the five operations returns a value and an
error for every other input and every response or error of the transport.
With a nil context `doReqURL` panics in `req.WithContext` once the request is
built; on a nil `*Client` every method panics; and with a hook that may panic
the five operations return when the hook returns on every call. -/
theorem operations_never_panic (lib : Lib E) (c : Client E κ σ) (k : κ) (s : σ) :
    (∀ u resp (t : GoType) (v : t.pointee), Completes lib c (some k) u resp →
        t ≠ .ptrSliceByte → c.doReqURL lib (some k) u t v true s = .panicked) ∧
      (∀ u (t : GoType) (v : t.pointee), c.doReqURL lib (some k) u t v false s ≠ .panicked) ∧
      (∀ u v raw, c.doReqURL lib (some k) u .ptrSliceByte v raw s ≠ .panicked) ∧
      (∀ count,
        ∃ r, viaPointer (some c) (fun c => c.GenRandomMailbox lib (some k) count s) =
          .returned r) ∧
      (∃ r, viaPointer (some c) (fun c => c.GetDomainList lib (some k) s) = .returned r) ∧
      (∀ login domain,
        ∃ r, viaPointer (some c) (fun c => c.GetMessages lib (some k) login domain s) =
          .returned r) ∧
      (∀ login domain id,
        ∃ r, viaPointer (some c) (fun c => c.ReadMessage lib (some k) login domain id s) =
          .returned r) ∧
      (∀ login domain id filename,
        ∃ r, viaPointer (some c)
          (fun c => c.DownloadAttachment lib (some k) login domain id filename s) =
          .returned r) ∧
      (∀ u (t : GoType) (v : t.pointee) raw, lib.NewRequest (str "GET") u = none →
        c.doReqURL lib none u t v raw s = .panicked) ∧
      (∀ (α : Type) (method : Client E κ σ → Exec α), viaPointer none method = .panicked) ∧
      ∀ (τ : Type) (d : Client E κ (Option τ)) (hook : Option (PanickingLog τ)) (x : τ),
        d.VerboseLog = hook.map PanickingLog.toLog →
        (∀ f, hook = some f → ∀ l y, f l y ≠ none) →
        (∀ count,
          ∃ r, (viaPointer (some d)
            (fun d => d.GenRandomMailbox lib (some k) count (some x))).withHookPanics =
            .returned r) ∧
        (∃ r, (viaPointer (some d)
            (fun d => d.GetDomainList lib (some k) (some x))).withHookPanics = .returned r) ∧
        (∀ login domain,
          ∃ r, (viaPointer (some d)
            (fun d => d.GetMessages lib (some k) login domain (some x))).withHookPanics =
            .returned r) ∧
        (∀ login domain id,
          ∃ r, (viaPointer (some d)
            (fun d => d.ReadMessage lib (some k) login domain id (some x))).withHookPanics =
            .returned r) ∧
        ∀ login domain id filename,
          ∃ r, (viaPointer (some d)
            (fun d => d.DownloadAttachment lib (some k) login domain id filename
              (some x))).withHookPanics = .returned r := by
  have key : ∀ {α β : Type} (wrap : α → β) (nil : β) (r : Exec (Option (Error E) × α × σ)),
      (∃ err v s1, r = .returned (err, v, s1)) → ∃ x, deliver nil wrap r = .returned x := by
    rintro α β wrap nil r ⟨err, v, s1, rfl⟩
    cases err with
    | none => exact ⟨_, rfl⟩
    | some e => exact ⟨_, rfl⟩
  refine ⟨?_, ?_, ?_, fun count => ?_, ?_, fun login domain => ?_, fun login domain id => ?_,
    fun login domain id filename => ?_,
    fun u t v raw h => doReqURL_nil_context lib c u t v raw s h, fun α method => rfl, ?_⟩
  · rintro u resp t v ⟨h1, k1, hk, h2, h3⟩ ht
    cases hk
    simp only [requestFor] at h2
    cases t with
    | ptrSliceByte => exact absurd rfl ht
    | ptrSliceString => simp [Client.doReqURL, h1, h2, h3]
    | ptrSliceMessageItem => simp [Client.doReqURL, h1, h2, h3]
    | ptrMessage => simp [Client.doReqURL, h1, h2, h3]
  · intro u t v hp
    obtain ⟨err, v1, s1, hr⟩ := doReqURL_json_returns lib c k u t v s
    rw [hr] at hp
    cases hp
  · intro u v raw hp
    obtain ⟨err, v1, s1, hr⟩ := doReqURL_bytes_returns lib c k u v raw s
    rw [hr] at hp
    cases hp
  · simp only [viaPointer]
    rw [GenRandomMailbox_eq]
    exact key _ _ _ (doReqURL_json_returns lib c k _ .ptrSliceString none s)
  · simp only [viaPointer]
    rw [GetDomainList_eq]
    exact key _ _ _ (doReqURL_json_returns lib c k _ .ptrSliceString none s)
  · simp only [viaPointer]
    rw [GetMessages_eq]
    exact key _ _ _ (doReqURL_json_returns lib c k _ .ptrSliceMessageItem none s)
  · simp only [viaPointer]
    rw [ReadMessage_eq]
    exact key _ _ _ (doReqURL_json_returns lib c k _ .ptrMessage Message.zero s)
  · simp only [viaPointer]
    rw [DownloadAttachment_eq]
    exact key _ _ _ (doReqURL_bytes_returns lib c k _ none true s)
  · intro τ d hook x hd hf
    refine ⟨fun count => ?_, ?_, fun login domain => ?_, fun login domain id => ?_,
      fun login domain id filename => ?_⟩
    · simp only [viaPointer]
      rw [GenRandomMailbox_eq]
      exact deliver_withHookPanics _ _ _ (doReqURL_returns_some lib d hook hd hf _ _ _ _ _ x
        (doReqURL_json_returns lib d k _ .ptrSliceString none (some x)))
    · simp only [viaPointer]
      rw [GetDomainList_eq]
      exact deliver_withHookPanics _ _ _ (doReqURL_returns_some lib d hook hd hf _ _ _ _ _ x
        (doReqURL_json_returns lib d k _ .ptrSliceString none (some x)))
    · simp only [viaPointer]
      rw [GetMessages_eq]
      exact deliver_withHookPanics _ _ _ (doReqURL_returns_some lib d hook hd hf _ _ _ _ _ x
        (doReqURL_json_returns lib d k _ .ptrSliceMessageItem none (some x)))
    · simp only [viaPointer]
      rw [ReadMessage_eq]
      exact deliver_withHookPanics _ _ _ (doReqURL_returns_some lib d hook hd hf _ _ _ _ _ x
        (doReqURL_json_returns lib d k _ .ptrMessage Message.zero (some x)))
    · simp only [viaPointer]
      rw [DownloadAttachment_eq]
      exact deliver_withHookPanics _ _ _ (doReqURL_returns_some lib d hook hd hf _ _ _ _ _ x
        (doReqURL_bytes_returns lib d k _ none true (some x)))

end Claims2

end Onesecmail

namespace Onesecmail

/-! ## The claims at concrete inputs -/

/-- Witness of C1: against a mock server answering status 500 with the body
`Internal Error`, `doReqURL` on the target of `ReadMessage` returns
`ErrBadStatusCode` with code 500 and that body, the target stays the zero
message, and `ReadMessage` returns a nil message with the same error. -/
theorem bad_status_witness :
    (mockClient 500 (str "Internal Error")).doReqURL mockLib (some ())
        (str "https://www.1secmail.com/api/v1/?action=readMessage&domain=1secmail.com&id=7&login=demo")
        .ptrMessage Message.zero false [] =
      .returned (some (.ErrBadStatusCode (str "Internal Error") 500), Message.zero,
        [[.string (str "fetching"), .string
            (str "https://www.1secmail.com/api/v1/?action=readMessage&domain=1secmail.com&id=7&login=demo")],
          [.string (str "Invalid status code"), .int 500]]) ∧
      (mockClient 500 (str "Internal Error")).ReadMessage mockLib (some ()) (str "demo")
        (str "1secmail.com") 7 [] =
        .returned ((none, some (.ErrBadStatusCode (str "Internal Error") 500)),
          [[.string (str "fetching"), .string
              (str "https://www.1secmail.com/api/v1/?action=readMessage&domain=1secmail.com&id=7&login=demo")],
            [.string (str "Invalid status code"), .int 500]]) :=
  ⟨(bad_status_yields_ErrBadStatusCode mockLib (mockClient 500 (str "Internal Error")) ()
      (str "https://www.1secmail.com/api/v1/?action=readMessage&domain=1secmail.com&id=7&login=demo")
      { StatusCode := 500, Body := { buf := some (str "Internal Error"), err := none } }
      .ptrMessage Message.zero [] ⟨rfl, (), rfl, rfl, rfl⟩ (by decide)).1, by decide!⟩

/-- Witness of C3: against a mock server answering status 200 with the four
bytes `50 4b 03 04`, `DownloadAttachment` returns exactly those four bytes and
a nil error; answering status 404 with the text `not found`, `doReqURL` in
raw-bytes mode returns that text as bytes and a nil error. -/
theorem raw_mode_witness :
    (mockClient 200 [0x50, 0x4b, 0x03, 0x04]).DownloadAttachment mockLib (some ()) (str "demo")
        (str "1secmail.com") 7 (str "a.zip") [] =
      .returned ((some [0x50, 0x4b, 0x03, 0x04], none),
        [[.string (str "fetching"), .string
          (str "https://www.1secmail.com/api/v1/?action=download&domain=1secmail.com&file=a.zip&id=7&login=demo")]]) ∧
      (mockClient 404 (str "not found")).doReqURL mockLib (some ()) (str "u") .ptrSliceByte none true [] =
        .returned (none, some (str "not found"), [[.string (str "fetching"), .string (str "u")]]) :=
  ⟨(raw_mode_returns_body mockLib (mockClient 200 [0x50, 0x4b, 0x03, 0x04]) ()
      (str "https://www.1secmail.com/api/v1/?action=download&domain=1secmail.com&file=a.zip&id=7&login=demo")
      { StatusCode := 200, Body := { buf := some [0x50, 0x4b, 0x03, 0x04], err := none } } []
      ⟨rfl, (), rfl, rfl, rfl⟩).2 (str "demo") (str "1secmail.com") 7 (str "a.zip") (by decide!),
    (raw_mode_returns_body mockLib (mockClient 404 (str "not found")) () (str "u")
      { StatusCode := 404, Body := { buf := some (str "not found"), err := none } } []
      ⟨rfl, (), rfl, rfl, rfl⟩).1 none⟩

/-- Witness of C4: with a transport that fails every request with error 7,
`doReqURL` returns error 7 itself and `GetDomainList` returns a nil slice and
error 7. -/
theorem transport_error_witness :
    (failingClient 7).doReqURL mockLib (some ()) (str "https://www.1secmail.com/api/v1/?action=getDomainList")
        .ptrSliceString none false [] = .returned (some (.ext 7), none, []) ∧
      (failingClient 7).GetDomainList mockLib (some ()) [] = .returned ((none, some (.ext 7)), []) :=
  ⟨(transport_error_propagates mockLib (failingClient 7) ()
      (str "https://www.1secmail.com/api/v1/?action=getDomainList") 7 []
      (Or.inr (Or.inl ⟨rfl, (), rfl, rfl⟩))).1 .ptrSliceString none false,
    (transport_error_propagates mockLib (failingClient 7) ()
      (str "https://www.1secmail.com/api/v1/?action=getDomainList") 7 []
      (Or.inr (Or.inl ⟨rfl, (), rfl, rfl⟩))).2.2.1 (by decide!)⟩

/-- Counterexample to C8 as stated: with a recording hook, `DownloadAttachment`
against a mock server answering status 200 with the bytes `50 4b 03 04` calls
the hook once, with `"fetching"` and the URL, and never with the body; and
`ReadMessage` against a server answering status 500 with `Internal Error`
calls it with the URL and with the status code, never with the body. -/
theorem hook_not_called_with_body :
    ((mockClient 200 [0x50, 0x4b, 0x03, 0x04]).DownloadAttachment mockLib (some ()) (str "demo")
        (str "1secmail.com") 7 (str "a.zip") [] =
      .returned ((some [0x50, 0x4b, 0x03, 0x04], none),
          [[.string (str "fetching"), .string
            (str "https://www.1secmail.com/api/v1/?action=download&domain=1secmail.com&file=a.zip&id=7&login=demo")]]) ∧
        ¬ CalledWith [[.string (str "fetching"), .string
            (str "https://www.1secmail.com/api/v1/?action=download&domain=1secmail.com&file=a.zip&id=7&login=demo")]]
          (.string [0x50, 0x4b, 0x03, 0x04])) ∧
      (mockClient 500 (str "Internal Error")).ReadMessage mockLib (some ()) (str "demo")
        (str "1secmail.com") 7 [] =
      .returned ((none, some (.ErrBadStatusCode (str "Internal Error") 500)),
          [[.string (str "fetching"), .string
              (str "https://www.1secmail.com/api/v1/?action=readMessage&domain=1secmail.com&id=7&login=demo")],
            [.string (str "Invalid status code"), .int 500]]) ∧
        ¬ CalledWith [[.string (str "fetching"), .string
              (str "https://www.1secmail.com/api/v1/?action=readMessage&domain=1secmail.com&id=7&login=demo")],
            [.string (str "Invalid status code"), .int 500]]
          (.string (str "Internal Error")) := by
  refine ⟨⟨by decide!, ?_⟩, ⟨by decide!, ?_⟩⟩
  · rintro ⟨call, hcall, hx⟩
    simp only [List.mem_singleton] at hcall
    subst hcall
    revert hx
    decide!
  · rintro ⟨call, hcall, hx⟩
    simp only [List.mem_cons, List.mem_singleton, List.not_mem_nil, or_false] at hcall
    rcases hcall with rfl | rfl <;> (revert hx; decide!)

/-- Witness of C8 as amended: with the recording hook and a mock server
answering status 200 with `[]`, `doReqURL` in JSON mode calls the hook with
`"fetching"` and the URL, then with `"Fetch result"` and the body. -/
theorem hook_calls_witness :
    Exec.hookState ((mockClient 200 (str "[]")).doReqURL mockLib (some ()) (str "u") .ptrSliceString
        none false []) =
      some [[.string (str "fetching"), .string (str "u")],
        [.string (str "Fetch result"), .string (str "[]")]] :=
  (hook_calls mockLib (mockClient 200 (str "[]")) recordCalls () (str "u")
    { StatusCode := 200, Body := { buf := some (str "[]"), err := none } } [] rfl
    ⟨rfl, (), rfl, rfl, rfl⟩).2.1 .ptrSliceString none rfl

/-- Witness of C9: against a mock server answering status 200 with the body
`[1,"a"]`, the decoder fills the target with two strings before it reports the
number, `doReqURL` returns that target with an `ErrNotExpectedJSON`, and
`GetDomainList` hands a nil slice and the error to its caller. -/
theorem partial_target_not_returned :
    (mockClient 200 (str "[1,\"a\"]")).doReqURL mockLib (some ())
        (str "https://www.1secmail.com/api/v1/?action=getDomainList") .ptrSliceString none false
        [] = .returned (some (.ErrNotExpectedJSON (str "[1,\"a\"]")
          (.UnmarshalTypeError (str "number") .string)), some [[], str "a"],
          [[.string (str "fetching"),
              .string (str "https://www.1secmail.com/api/v1/?action=getDomainList")],
            [.string (str "Fetch result"), .string (str "[1,\"a\"]")]]) ∧
      (mockClient 200 (str "[1,\"a\"]")).GetDomainList mockLib (some ()) [] =
        .returned ((none, some (.ErrNotExpectedJSON (str "[1,\"a\"]")
          (.UnmarshalTypeError (str "number") .string))),
          [[.string (str "fetching"),
              .string (str "https://www.1secmail.com/api/v1/?action=getDomainList")],
            [.string (str "Fetch result"), .string (str "[1,\"a\"]")]]) := by
  have hd : (mockClient 200 (str "[1,\"a\"]")).doReqURL mockLib (some ())
      (str "https://www.1secmail.com/api/v1/?action=getDomainList") .ptrSliceString none false
      [] = .returned (some (.ErrNotExpectedJSON (str "[1,\"a\"]")
        (.UnmarshalTypeError (str "number") .string)), some [[], str "a"],
        [[.string (str "fetching"),
          .string (str "https://www.1secmail.com/api/v1/?action=getDomainList")],
        [.string (str "Fetch result"), .string (str "[1,\"a\"]")]]) := by decide!
  obtain ⟨val, h1, h2, _⟩ :=
    (operations_return_target_or_nil mockLib (mockClient 200 (str "[1,\"a\"]")) (some ())
      []).2.1 _ _ _ hd
  rw [h2 (by simp)] at h1
  exact ⟨hd, h1⟩

/-- Witness of C10 as amended: against a completing mock server and with a
context that is not nil, `doReqURL` in raw-bytes mode with a `*[]string`
target panics, while `DownloadAttachment` on a client that is not nil returns,
also with a hook that may panic but returns on every call. -/
theorem never_panic_witness :
    (mockClient 200 (str "x")).doReqURL mockLib (some ()) (str "u") .ptrSliceString none true
        [] = .panicked ∧
      (∃ r, viaPointer (some (mockClient 200 (str "x")))
        (fun c => c.DownloadAttachment mockLib (some ()) (str "demo") (str "1secmail.com") 7
          (str "a.zip") []) = .returned r) ∧
      ∃ r, (viaPointer (some (countingHookClient 200 (str "x")))
        (fun d => d.DownloadAttachment mockLib (some ()) (str "demo") (str "1secmail.com") 7
          (str "a.zip") (some 0))).withHookPanics = .returned r :=
  ⟨(operations_never_panic mockLib (mockClient 200 (str "x")) () []).1 (str "u")
      { StatusCode := 200, Body := { buf := some (str "x"), err := none } } .ptrSliceString none
      ⟨rfl, (), rfl, rfl, rfl⟩ (by decide),
    (operations_never_panic mockLib (mockClient 200 (str "x")) () []).2.2.2.2.2.2.2.1
      (str "demo") (str "1secmail.com") 7 (str "a.zip"),
    ((operations_never_panic mockLib (mockClient 200 (str "x")) () []).2.2.2.2.2.2.2.2.2.2
      Nat (countingHookClient 200 (str "x")) (some (fun _ n => some (n + 1))) 0 rfl
      (fun f hf l y => by cases hf; simp)).2.2.2.2
      (str "demo") (str "1secmail.com") 7 (str "a.zip")⟩

/-- Counterexample to C10 as stated: `GetDomainList` against a mock server that
would answer status 200 with `[]` does not return when the context is nil (the
request is built and `req.WithContext(nil)` panics), when it is called on a
nil `*Client` (`c.BaseURL` in `urlBase` panics), or when the hook panics (at
its first call, in `verboseLog`). -/
theorem operations_can_panic :
    (mockClient 200 (str "[]")).GetDomainList mockLib none [] = .panicked ∧
      viaPointer (none : Option (Client Nat Unit (List (List LogValue))))
        (fun c => c.GetDomainList mockLib (some ()) []) = .panicked ∧
      (viaPointer (some (panickingHookClient 200 (str "[]")))
        (fun d => d.GetDomainList mockLib (some ()) (some ()))).withHookPanics = .panicked := by
  refine ⟨by decide!, rfl, by decide!⟩

end Onesecmail

namespace Onesecmail

/-! ## The decoder on bodies that match the schema -/

theorem findIndex_eq_mem (key : GoString) (names : List GoString) (i : Nat)
    (h : findIndex (fun n => n = key) names = some i) : key ∈ names := by
  induction names generalizing i with
  | nil => simp [findIndex] at h
  | cons n ns ih =>
    unfold findIndex at h
    by_cases hn : n = key
    · subst hn; exact List.mem_cons_self _ _
    · simp only [hn, decide_False, Bool.false_eq_true, if_false, Option.map_eq_some'] at h
      obtain ⟨a, ha, _⟩ := h
      exact List.mem_cons_of_mem _ (ih a ha)

theorem findField_attachmentFields (key : GoString) :
    findField attachmentFields key = byFoldedName attachmentFields key := by
  unfold findField
  cases h : findIndex (fun n => n = key) attachmentFields with
  | none => rfl
  | some i =>
    have hm := findIndex_eq_mem key _ i h
    simp only [attachmentFields, List.mem_cons, List.mem_singleton, List.not_mem_nil,
      or_false] at hm
    rcases hm with rfl | rfl | rfl <;> (revert h; revert i; decide!)

theorem findField_messageItemFields (key : GoString) :
    findField messageItemFields key = byFoldedName messageItemFields key := by
  unfold findField
  cases h : findIndex (fun n => n = key) messageItemFields with
  | none => rfl
  | some i =>
    have hm := findIndex_eq_mem key _ i h
    simp only [messageItemFields, List.mem_cons, List.mem_singleton, List.not_mem_nil,
      or_false] at hm
    rcases hm with rfl | rfl | rfl | rfl <;> (revert h; revert i; decide!)

theorem findField_messageFields (key : GoString) :
    findField messageFields key = byFoldedName messageFields key := by
  unfold findField
  cases h : findIndex (fun n => n = key) messageFields with
  | none => rfl
  | some i =>
    have hm := findIndex_eq_mem key _ i h
    simp only [messageFields, List.mem_cons, List.mem_singleton, List.not_mem_nil,
      or_false] at hm
    rcases hm with rfl | rfl | rfl | rfl | rfl | rfl | rfl | rfl <;>
      (revert h; revert i; decide!)

theorem lastValue_cons_of_ne (nm : Naming) (names : List GoString) (i : Nat) (key : GoString)
    (j : JSON) (rest : List (GoString × JSON)) (h : nm names key ≠ some i) :
    lastValue nm names i ((key, j) :: rest) = lastValue nm names i rest := by
  simp only [lastValue]
  cases lastValue nm names i rest <;> simp [h]

theorem stringOr_lastValue_cons (nm : Naming) (names : List GoString) (i : Nat)
    (key : GoString) (s d : GoString) (rest : List (GoString × JSON))
    (h : nm names key = some i) :
    stringOr d (lastValue nm names i ((key, .string s) :: rest)) =
      stringOr s (lastValue nm names i rest) := by
  simp only [lastValue]
  rcases lastValue nm names i rest with _ | x
  · simp [h, stringOr]
  · cases x <;> rfl

theorem intOr_lastValue_cons (nm : Naming) (names : List GoString) (i : Nat)
    (key : GoString) (lit : GoString) (n d : Int) (rest : List (GoString × JSON))
    (h : nm names key = some i) (hn : ParseInt lit = some n) :
    intOr d (lastValue nm names i ((key, .number lit) :: rest)) =
      intOr n (lastValue nm names i rest) := by
  simp only [lastValue]
  rcases lastValue nm names i rest with _ | x
  · simp [h, intOr, hn]
  · cases x <;> rfl

theorem storeString_of_isString (j : JSON) (v : GoString) (h : j.isString = true) :
    ∃ s, j = .string s ∧ storeString j v = (s, none) := by
  cases j <;> simp [JSON.isString] at h
  exact ⟨_, rfl, rfl⟩

theorem storeInt_of_isInt (j : JSON) (v : Int) (h : j.isInt = true) :
    ∃ lit n, j = .number lit ∧ ParseInt lit = some n ∧ storeInt j v = (n, none) := by
  cases j <;> simp [JSON.isInt] at h
  rename_i lit
  obtain ⟨n, hn⟩ := Option.isSome_iff_exists.mp h
  exact ⟨lit, n, rfl, hn, by simp [storeInt, hn]⟩

theorem storeAttachmentMembers_of_fits (members : List (GoString × JSON)) (v : Attachment)
    (h : fitsAttachment byFoldedName members = true) :
    storeAttachmentMembers members v = (attachmentOf byFoldedName members v, none) := by
  induction members generalizing v with
  | nil => rfl
  | cons kv rest ih =>
    obtain ⟨key, j⟩ := kv
    unfold fitsAttachment at h
    rw [Bool.and_eq_true] at h
    obtain ⟨hj, hrest⟩ := h
    unfold storeAttachmentMembers
    rw [findField_attachmentFields]
    rcases hk : byFoldedName attachmentFields key with _ | _ | _ | _ | i
    · simp only [ih _ hrest, saveError, attachmentOf]
      simp [lastValue_cons_of_ne, hk]
    · rw [hk] at hj
      obtain ⟨s, rfl, hs⟩ := storeString_of_isString j v.ContentType hj
      simp only [hs, ih _ hrest, saveError, attachmentOf]
      simp [lastValue_cons_of_ne, stringOr_lastValue_cons, hk]
    · rw [hk] at hj
      obtain ⟨s, rfl, hs⟩ := storeString_of_isString j v.Filename hj
      simp only [hs, ih _ hrest, saveError, attachmentOf]
      simp [lastValue_cons_of_ne, stringOr_lastValue_cons, hk]
    · rw [hk] at hj
      obtain ⟨lit, n, rfl, hn, hs⟩ := storeInt_of_isInt j v.Size hj
      simp only [hs, ih _ hrest, saveError, attachmentOf]
      simp [lastValue_cons_of_ne, intOr_lastValue_cons _ _ _ _ _ _ _ _ hk hn, hk]
    · simp only [ih _ hrest, saveError, attachmentOf]
      simp [lastValue_cons_of_ne, hk]

end Onesecmail

namespace Onesecmail

theorem storeMessageItemMembers_of_fits (members : List (GoString × JSON)) (v : MessageItem)
    (h : fitsMessageItem byFoldedName members = true) :
    storeMessageItemMembers members v = (messageItemOf byFoldedName members v, none) := by
  induction members generalizing v with
  | nil => rfl
  | cons kv rest ih =>
    obtain ⟨key, j⟩ := kv
    unfold fitsMessageItem at h
    rw [Bool.and_eq_true] at h
    obtain ⟨hj, hrest⟩ := h
    unfold storeMessageItemMembers
    rw [findField_messageItemFields]
    rcases hk : byFoldedName messageItemFields key with _ | _ | _ | _ | _ | i
    · simp only [ih _ hrest, saveError, messageItemOf]
      simp [lastValue_cons_of_ne, hk]
    · rw [hk] at hj
      obtain ⟨lit, n, rfl, hn, hs⟩ := storeInt_of_isInt j v.ID hj
      simp only [hs, ih _ hrest, saveError, messageItemOf]
      simp [lastValue_cons_of_ne, intOr_lastValue_cons _ _ _ _ _ _ _ _ hk hn, hk]
    · rw [hk] at hj
      obtain ⟨s, rfl, hs⟩ := storeString_of_isString j v.From hj
      simp only [hs, ih _ hrest, saveError, messageItemOf]
      simp [lastValue_cons_of_ne, stringOr_lastValue_cons, hk]
    · rw [hk] at hj
      obtain ⟨s, rfl, hs⟩ := storeString_of_isString j v.Subject hj
      simp only [hs, ih _ hrest, saveError, messageItemOf]
      simp [lastValue_cons_of_ne, stringOr_lastValue_cons, hk]
    · rw [hk] at hj
      obtain ⟨s, rfl, hs⟩ := storeString_of_isString j v.Date hj
      simp only [hs, ih _ hrest, saveError, messageItemOf]
      simp [lastValue_cons_of_ne, stringOr_lastValue_cons, hk]
    · simp only [ih _ hrest, saveError, messageItemOf]
      simp [lastValue_cons_of_ne, hk]

theorem storeElems_strings (xs : List GoString) :
    storeElems storeString [] (xs.map .string) [] = (xs, none) := by
  induction xs with
  | nil => rfl
  | cons x xs ih => simp [storeElems, storeString, ih, saveError]

theorem storeElems_messageItems (elems : List JSON)
    (h : elems.all (JSON.fitsMessageItem byFoldedName) = true) :
    storeElems storeMessageItem MessageItem.zero elems [] =
      (elems.map (JSON.messageItem byFoldedName), none) := by
  induction elems with
  | nil => rfl
  | cons e es ih =>
    rw [List.all_cons, Bool.and_eq_true] at h
    obtain ⟨he, hes⟩ := h
    cases e <;> simp [JSON.fitsMessageItem] at he
    rename_i members
    simp [storeElems, storeMessageItem, storeMessageItemMembers_of_fits members _ he, ih hes,
      saveError, JSON.messageItem]

theorem storeElems_attachments (elems : List JSON)
    (h : elems.all (JSON.fitsAttachment byFoldedName) = true) :
    storeElems storeAttachment Attachment.zero elems [] =
      (elems.map (JSON.attachment byFoldedName), none) := by
  induction elems with
  | nil => rfl
  | cons e es ih =>
    rw [List.all_cons, Bool.and_eq_true] at h
    obtain ⟨he, hes⟩ := h
    cases e <;> simp [JSON.fitsAttachment] at he
    rename_i members
    simp [storeElems, storeAttachment, storeAttachmentMembers_of_fits members _ he, ih hes,
      saveError, JSON.attachment]

theorem lastValue_of_count_zero (nm : Naming) (names : List GoString) (i : Nat)
    (members : List (GoString × JSON)) (h : countNaming nm names i members = 0) :
    lastValue nm names i members = none := by
  induction members with
  | nil => rfl
  | cons kv rest ih =>
    obtain ⟨key, j⟩ := kv
    simp only [countNaming] at h
    have h1 : countNaming nm names i rest = 0 := by omega
    have h2 : nm names key ≠ some i := by
      intro hk
      simp [hk] at h
    rw [lastValue_cons_of_ne _ _ _ _ _ _ h2, ih h1]

theorem countNaming_cons_of_ne (nm : Naming) (names : List GoString) (i : Nat) (key : GoString)
    (j : JSON) (rest : List (GoString × JSON)) (h : nm names key ≠ some i) :
    countNaming nm names i ((key, j) :: rest) = countNaming nm names i rest := by
  simp [countNaming, h]

theorem storeSlice_attachments (j : JSON) (v : GoSlice Attachment) (hidden : List Attachment)
    (hj : j.fitsAttachments byFoldedName = true) (hfresh : v.elems ++ hidden = []) :
    (storeSlice storeAttachment Attachment.zero .sliceAttachment j v hidden).1.1 =
        attachmentsOr byFoldedName v (some j) ∧
      (storeSlice storeAttachment Attachment.zero .sliceAttachment j v hidden).2 = none := by
  cases j <;> simp [JSON.fitsAttachments] at hj
  rename_i elems
  have hall : elems.all (JSON.fitsAttachment byFoldedName) = true := by
    simpa [List.all_eq_true] using hj
  simp only [storeSlice, hfresh, storeElems_attachments elems hall, attachmentsOr]
  cases elems <;> simp

end Onesecmail

namespace Onesecmail

theorem storeMessageMembers_of_fits (members : List (GoString × JSON)) (v : Message)
    (hidden : List Attachment) (h : fitsMessageMembers byFoldedName members = true)
    (hc : countNaming byFoldedName messageFields 4 members ≤ 1)
    (hfresh : countNaming byFoldedName messageFields 4 members ≠ 0 →
      v.Attachments.elems ++ hidden = []) :
    storeMessageMembers members v hidden = (messageOf byFoldedName members v, none) := by
  induction members generalizing v hidden with
  | nil => rfl
  | cons kv rest ih =>
    obtain ⟨key, j⟩ := kv
    unfold fitsMessageMembers at h
    rw [Bool.and_eq_true] at h
    obtain ⟨hj, hrest⟩ := h
    unfold storeMessageMembers
    rw [findField_messageFields]
    rcases hk : byFoldedName messageFields key with _ | _ | _ | _ | _ | _ | _ | _ | _ | i
    · have hne : byFoldedName messageFields key ≠ some 4 := by simp [hk]
      rw [countNaming_cons_of_ne _ _ _ _ _ _ hne] at hc hfresh
      simp only [ih v hidden hrest hc hfresh, saveError, messageOf]
      simp [lastValue_cons_of_ne, hk]
    · have hne : byFoldedName messageFields key ≠ some 4 := by simp [hk]
      rw [countNaming_cons_of_ne _ _ _ _ _ _ hne] at hc hfresh
      rw [hk] at hj
      obtain ⟨lit, n, rfl, hn, hs⟩ := storeInt_of_isInt j v.ID hj
      simp only [hs, ih { v with ID := n } hidden hrest hc hfresh, saveError, messageOf]
      simp [lastValue_cons_of_ne, intOr_lastValue_cons _ _ _ _ _ _ _ _ hk hn, hk]
    · have hne : byFoldedName messageFields key ≠ some 4 := by simp [hk]
      rw [countNaming_cons_of_ne _ _ _ _ _ _ hne] at hc hfresh
      rw [hk] at hj
      obtain ⟨s, rfl, hs⟩ := storeString_of_isString j v.From hj
      simp only [hs, ih { v with From := s } hidden hrest hc hfresh, saveError, messageOf]
      simp [lastValue_cons_of_ne, stringOr_lastValue_cons, hk]
    · have hne : byFoldedName messageFields key ≠ some 4 := by simp [hk]
      rw [countNaming_cons_of_ne _ _ _ _ _ _ hne] at hc hfresh
      rw [hk] at hj
      obtain ⟨s, rfl, hs⟩ := storeString_of_isString j v.Subject hj
      simp only [hs, ih { v with Subject := s } hidden hrest hc hfresh, saveError, messageOf]
      simp [lastValue_cons_of_ne, stringOr_lastValue_cons, hk]
    · have hne : byFoldedName messageFields key ≠ some 4 := by simp [hk]
      rw [countNaming_cons_of_ne _ _ _ _ _ _ hne] at hc hfresh
      rw [hk] at hj
      obtain ⟨s, rfl, hs⟩ := storeString_of_isString j v.Date hj
      simp only [hs, ih { v with Date := s } hidden hrest hc hfresh, saveError, messageOf]
      simp [lastValue_cons_of_ne, stringOr_lastValue_cons, hk]
    · rw [hk] at hj
      have hcount : countNaming byFoldedName messageFields 4 rest = 0 := by
        simp only [countNaming, hk, if_true] at hc
        omega
      have hf : v.Attachments.elems ++ hidden = [] := by
        apply hfresh
        simp [countNaming, hk]
      obtain ⟨h1, h2⟩ := storeSlice_attachments j v.Attachments hidden hj hf
      have hl := lastValue_of_count_zero _ _ _ _ hcount
      simp only [h2, saveError, messageOf]
      rw [ih _ _ hrest (by omega) (fun hz => absurd hcount hz)]
      have h4 : lastValue byFoldedName messageFields 4 ((key, j) :: rest) = some j := by
        simp [lastValue, hl, hk]
      simp only [messageOf, h1, hl, h4]
      simp [lastValue_cons_of_ne, hk, attachmentsOr]
    · have hne : byFoldedName messageFields key ≠ some 4 := by simp [hk]
      rw [countNaming_cons_of_ne _ _ _ _ _ _ hne] at hc hfresh
      rw [hk] at hj
      obtain ⟨s, rfl, hs⟩ := storeString_of_isString j v.Body hj
      simp only [hs, ih { v with Body := s } hidden hrest hc hfresh, saveError, messageOf]
      simp [lastValue_cons_of_ne, stringOr_lastValue_cons, hk]
    · have hne : byFoldedName messageFields key ≠ some 4 := by simp [hk]
      rw [countNaming_cons_of_ne _ _ _ _ _ _ hne] at hc hfresh
      rw [hk] at hj
      obtain ⟨s, rfl, hs⟩ := storeString_of_isString j v.TextBody hj
      simp only [hs, ih { v with TextBody := s } hidden hrest hc hfresh, saveError, messageOf]
      simp [lastValue_cons_of_ne, stringOr_lastValue_cons, hk]
    · have hne : byFoldedName messageFields key ≠ some 4 := by simp [hk]
      rw [countNaming_cons_of_ne _ _ _ _ _ _ hne] at hc hfresh
      rw [hk] at hj
      obtain ⟨s, rfl, hs⟩ := storeString_of_isString j v.HTMLBody hj
      simp only [hs, ih { v with HTMLBody := s } hidden hrest hc hfresh, saveError, messageOf]
      simp [lastValue_cons_of_ne, stringOr_lastValue_cons, hk]
    · have hne : byFoldedName messageFields key ≠ some 4 := by simp [hk]
      rw [countNaming_cons_of_ne _ _ _ _ _ _ hne] at hc hfresh
      simp only [ih v hidden hrest hc hfresh, saveError, messageOf]
      simp [lastValue_cons_of_ne, hk]

end Onesecmail

namespace Onesecmail

theorem unmarshal_strings (sb : JSON → GoSlice Nat → GoSlice Nat × Option DecodeError)
    (xs : List GoString) :
    unmarshal sb .ptrSliceString (.array (xs.map .string)) none = (some xs, none) := by
  simp only [unmarshal, storeSlice, GoSlice.elems, List.append_nil, storeElems_strings]
  cases xs <;> rfl

theorem unmarshal_messageItems (sb : JSON → GoSlice Nat → GoSlice Nat × Option DecodeError)
    (elems : List JSON) (h : elems.all (JSON.fitsMessageItem byFoldedName) = true) :
    unmarshal sb .ptrSliceMessageItem (.array elems) none =
      (some (elems.map (JSON.messageItem byFoldedName)), none) := by
  simp only [unmarshal, storeSlice, GoSlice.elems, List.append_nil,
    storeElems_messageItems elems h]
  cases elems <;> rfl

theorem unmarshal_message (sb : JSON → GoSlice Nat → GoSlice Nat × Option DecodeError)
    (members : List (GoString × JSON)) (h : fitsMessage byFoldedName members = true) :
    unmarshal sb .ptrMessage (.object members) Message.zero =
      (messageOf byFoldedName members Message.zero, none) := by
  unfold fitsMessage at h
  rw [Bool.and_eq_true, decide_eq_true_eq] at h
  simp only [unmarshal, storeMessage]
  exact storeMessageMembers_of_fits members Message.zero [] h.1 h.2 (fun _ => rfl)

theorem Decode_of_firstValue (sb : JSON → GoSlice Nat → GoSlice Nat × Option DecodeError)
    (t : GoType) (body : List Nat) (v : t.pointee) (j : JSON) (h : firstValue body = some j) :
    Decode sb t body v = unmarshal sb t j v := by
  unfold firstValue at h
  unfold Decode
  cases hr : readValue body with
  | error e => rw [hr] at h; cases h
  | ok n =>
    rw [hr] at h
    simp only [] at h ⊢
    rw [h]

section Schema

variable {E κ σ : Type}

/-- Claim C6 as amended: in JSON mode, when the exchange completes with status
200 and the first JSON value of the body matches the schema of the target,
`doReqURL` returns a nil error and the target holds the value of the body:
the strings of the array in order; the message summaries of the array in
order; the message of the object.  A member names a field when its key equals
the field's JSON name with letter case ignored; the body matches when every
member that names a field holds a value of the field's type and at most one
member names `attachments`; a field holds the value of the last member that
names it (its zero value when none does), and members that name no field are
ignored. -/
theorem matching_body_decodes (lib : Lib E) (c : Client E κ σ) (ctx : Option κ) (u : GoString)
    (resp : Response E) (s : σ)
    (sb : JSON → GoSlice Nat → GoSlice Nat × Option DecodeError) (j : JSON)
    (h : Completes lib c ctx u resp) (hs : resp.StatusCode = 200)
    (hlib : lib.Decode = Decode sb) (hj : firstValue resp.Body.buf.elems = some j) :
    (∀ xs : List GoString, j = .array (xs.map .string) →
        c.doReqURL lib ctx u .ptrSliceString none false s =
          .returned (none, some xs,
            c.verboseLog [.string (str "Fetch result"), .string resp.Body.buf.elems]
              (c.verboseLog [.string (str "fetching"), .string u] s))) ∧
      (∀ elems : List JSON, j = .array elems →
        elems.all (JSON.fitsMessageItem byFoldedName) = true →
        c.doReqURL lib ctx u .ptrSliceMessageItem none false s =
          .returned (none, some (elems.map (JSON.messageItem byFoldedName)),
            c.verboseLog [.string (str "Fetch result"), .string resp.Body.buf.elems]
              (c.verboseLog [.string (str "fetching"), .string u] s))) ∧
      ∀ members : List (GoString × JSON), j = .object members →
        fitsMessage byFoldedName members = true →
        c.doReqURL lib ctx u .ptrMessage Message.zero false s =
          .returned (none, messageOf byFoldedName members Message.zero,
            c.verboseLog [.string (str "Fetch result"), .string resp.Body.buf.elems]
              (c.verboseLog [.string (str "fetching"), .string u] s)) := by
  refine ⟨fun xs hx => ?_, fun elems hx hf => ?_, fun members hx hf => ?_⟩
  · rw [doReqURL_of_ok lib c ctx u resp _ _ s h hs, hlib,
      Decode_of_firstValue sb _ _ _ j hj, hx, unmarshal_strings]
    rfl
  · rw [doReqURL_of_ok lib c ctx u resp _ _ s h hs, hlib,
      Decode_of_firstValue sb _ _ _ j hj, hx, unmarshal_messageItems sb elems hf]
    rfl
  · rw [doReqURL_of_ok lib c ctx u resp _ _ s h hs, hlib,
      Decode_of_firstValue sb _ _ _ j hj, hx, unmarshal_message sb members hf]
    rfl

end Schema

/-- Witness of C6: `GetDomainList` against a mock server answering status 200
with the body `["1secmail.com","esiix.com"]` returns exactly the two strings
`1secmail.com` and `esiix.com`, with a nil error, the first value of the body
being the array of these two strings; and a message object whose key `Id`
differs from the field name in letter case decodes into the field `ID`, its
member `x` being ignored. -/
theorem domain_list_witness :
    (mockClient 200 (str "[\"1secmail.com\",\"esiix.com\"]")).GetDomainList mockLib (some ()) [] =
        .returned ((some [str "1secmail.com", str "esiix.com"], none),
          [[.string (str "fetching"),
              .string (str "https://www.1secmail.com/api/v1/?action=getDomainList")],
            [.string (str "Fetch result"),
              .string (str "[\"1secmail.com\",\"esiix.com\"]")]]) ∧
      (mockClient 200 (str "[\"1secmail.com\",\"esiix.com\"]")).doReqURL mockLib (some ()) (str "u")
        .ptrSliceString none false [] =
        .returned (none, some [str "1secmail.com", str "esiix.com"],
          [[.string (str "fetching"), .string (str "u")],
            [.string (str "Fetch result"),
              .string (str "[\"1secmail.com\",\"esiix.com\"]")]]) ∧
      (mockClient 200 (str "\x7b\"Id\":5,\"x\":[1],\"attachments\":[\x7b\"size\":3\x7d]\x7d")).doReqURL
        mockLib (some ()) (str "u") .ptrMessage Message.zero false [] =
        .returned (none,
          { Message.zero with ID := 5, Attachments := some [{ Attachment.zero with Size := 3 }] },
          [[.string (str "fetching"), .string (str "u")],
            [.string (str "Fetch result"),
              .string (str "\x7b\"Id\":5,\"x\":[1],\"attachments\":[\x7b\"size\":3\x7d]\x7d")]]) :=
  ⟨by decide!,
    (matching_body_decodes mockLib (mockClient 200 (str "[\"1secmail.com\",\"esiix.com\"]")) ()
      (str "u")
      { StatusCode := 200,
        Body := { buf := some (str "[\"1secmail.com\",\"esiix.com\"]"), err := none } } []
      (fun _ v => (v, none)) (.array ([str "1secmail.com", str "esiix.com"].map .string))
      ⟨rfl, (), rfl, rfl, rfl⟩ rfl rfl (by rfl)).1 [str "1secmail.com", str "esiix.com"] rfl,
    (matching_body_decodes mockLib
      (mockClient 200 (str "\x7b\"Id\":5,\"x\":[1],\"attachments\":[\x7b\"size\":3\x7d]\x7d")) ()
      (str "u")
      { StatusCode := 200,
        Body := { buf := some (str "\x7b\"Id\":5,\"x\":[1],\"attachments\":[\x7b\"size\":3\x7d]\x7d"),
                  err := none } } []
      (fun _ v => (v, none))
      (.object [(str "Id", .number (str "5")), (str "x", .array [.number (str "1")]),
        (str "attachments", .array [.object [(str "size", .number (str "3"))]])])
      ⟨rfl, (), rfl, rfl, rfl⟩ rfl rfl (by rfl)).2.2 _ rfl (by decide!)⟩

/-- Counterexample to C6 as stated: the body `{"id":1,"ID":2}` matches the
schema of a message when fields are taken by their JSON names (`ID` is not the
name of a field), and the value under the name `id` is 1; yet `ReadMessage`
against a mock server answering status 200 with this body returns a message
whose `ID` is 2, with a nil error. -/
theorem extra_field_not_ignored :
    fitsMessage byName (firstObject (str "\x7b\"id\":1,\"ID\":2\x7d")) = true ∧
      messageOf byName (firstObject (str "\x7b\"id\":1,\"ID\":2\x7d")) Message.zero =
        { Message.zero with ID := 1 } ∧
      (mockClient 200 (str "\x7b\"id\":1,\"ID\":2\x7d")).ReadMessage mockLib (some ()) (str "demo")
        (str "1secmail.com") 7 [] =
        .returned ((some { Message.zero with ID := 2 }, none),
          [[.string (str "fetching"), .string
            (str "https://www.1secmail.com/api/v1/?action=readMessage&domain=1secmail.com&id=7&login=demo")],
            [.string (str "Fetch result"), .string (str "\x7b\"id\":1,\"ID\":2\x7d")]]) := by
  refine ⟨by decide!, by decide!, by decide!⟩

end Onesecmail

namespace Onesecmail

/-! ## The decoder on bodies that are malformed -/

theorem saveError_eq_none (a b : Option DecodeError) :
    saveError a b = none ↔ a = none ∧ b = none := by
  cases a <;> simp [saveError]

theorem storeString_err (j : JSON) (v : GoString) :
    (storeString j v).2 = none ↔ j.shapedString = true := by
  cases j <;> simp [storeString, JSON.shapedString, JSON.isString, JSON.isNull]

theorem storeInt_err (j : JSON) (v : Int) :
    (storeInt j v).2 = none ↔ j.shapedInt = true := by
  cases j with
  | number lit =>
    cases h : ParseInt lit <;> simp [storeInt, JSON.shapedInt, JSON.isInt, JSON.isNull, h]
  | _ => simp [storeInt, JSON.shapedInt, JSON.isInt, JSON.isNull]

theorem storeElems_err {α : Type} (store : JSON → α → α × Option DecodeError) (zero : α)
    (shaped : JSON → Bool) (h : ∀ j v, (store j v).2 = none ↔ shaped j = true)
    (elems : List JSON) (olds : List α) :
    (storeElems store zero elems olds).2 = none ↔ elems.all shaped = true := by
  induction elems generalizing olds with
  | nil => simp [storeElems]
  | cons x xs ih =>
    simp only [storeElems, saveError_eq_none, h, ih, List.all_cons, Bool.and_eq_true]

theorem storeAttachmentMembers_err (members : List (GoString × JSON)) (v : Attachment) :
    (storeAttachmentMembers members v).2 = none ↔
      shapedAttachmentMembers byFoldedName members = true := by
  induction members generalizing v with
  | nil => simp [storeAttachmentMembers, shapedAttachmentMembers]
  | cons kv rest ih =>
    obtain ⟨key, j⟩ := kv
    unfold storeAttachmentMembers shapedAttachmentMembers
    rw [findField_attachmentFields]
    rcases byFoldedName attachmentFields key with _ | _ | _ | _ | i <;>
      simp [saveError_eq_none, storeString_err, storeInt_err, ih]

theorem storeAttachment_err (j : JSON) (v : Attachment) :
    (storeAttachment j v).2 = none ↔ j.shapedAttachment byFoldedName = true := by
  cases j <;> simp [storeAttachment, JSON.shapedAttachment, storeAttachmentMembers_err]

theorem storeMessageItemMembers_err (members : List (GoString × JSON)) (v : MessageItem) :
    (storeMessageItemMembers members v).2 = none ↔
      shapedMessageItemMembers byFoldedName members = true := by
  induction members generalizing v with
  | nil => simp [storeMessageItemMembers, shapedMessageItemMembers]
  | cons kv rest ih =>
    obtain ⟨key, j⟩ := kv
    unfold storeMessageItemMembers shapedMessageItemMembers
    rw [findField_messageItemFields]
    rcases byFoldedName messageItemFields key with _ | _ | _ | _ | _ | i <;>
      simp [saveError_eq_none, storeString_err, storeInt_err, ih]

theorem storeMessageItem_err (j : JSON) (v : MessageItem) :
    (storeMessageItem j v).2 = none ↔ j.shapedMessageItem byFoldedName = true := by
  cases j <;> simp [storeMessageItem, JSON.shapedMessageItem, storeMessageItemMembers_err]

theorem storeSlice_err {α : Type} (store : JSON → α → α × Option DecodeError) (zero : α)
    (typ : TypeName) (shaped : JSON → Bool) (h : ∀ j v, (store j v).2 = none ↔ shaped j = true)
    (elems : List JSON) (v : GoSlice α) (hidden : List α) :
    (storeSlice store zero typ (.array elems) v hidden).2 = none ↔ elems.all shaped = true := by
  unfold storeSlice
  simp only []
  split <;> exact storeElems_err store zero shaped h elems _

theorem storeSlice_strings_err (j : JSON) (v : GoSlice GoString) (hidden : List GoString) :
    (storeSlice storeString [] .sliceString j v hidden).2 = none ↔ j.shapedStrings = true := by
  cases j with
  | array elems => exact storeSlice_err storeString [] _ JSON.shapedString storeString_err _ _ _
  | _ => simp [storeSlice, JSON.shapedStrings]

theorem storeSlice_messageItems_err (j : JSON) (v : GoSlice MessageItem)
    (hidden : List MessageItem) :
    (storeSlice storeMessageItem MessageItem.zero .sliceMessageItem j v hidden).2 = none ↔
      j.shapedMessageItems byFoldedName = true := by
  cases j with
  | array elems =>
    exact storeSlice_err storeMessageItem _ _ (JSON.shapedMessageItem byFoldedName)
      storeMessageItem_err _ _ _
  | _ => simp [storeSlice, JSON.shapedMessageItems]

theorem storeSlice_attachments_err (j : JSON) (v : GoSlice Attachment)
    (hidden : List Attachment) :
    (storeSlice storeAttachment Attachment.zero .sliceAttachment j v hidden).2 = none ↔
      j.shapedAttachments byFoldedName = true := by
  cases j with
  | array elems =>
    exact storeSlice_err storeAttachment _ _ (JSON.shapedAttachment byFoldedName)
      storeAttachment_err _ _ _
  | _ => simp [storeSlice, JSON.shapedAttachments]

theorem storeMessageMembers_err (members : List (GoString × JSON)) (v : Message)
    (hidden : List Attachment) :
    (storeMessageMembers members v hidden).2 = none ↔
      shapedMessageMembers byFoldedName members = true := by
  induction members generalizing v hidden with
  | nil => simp [storeMessageMembers, shapedMessageMembers]
  | cons kv rest ih =>
    obtain ⟨key, j⟩ := kv
    unfold storeMessageMembers shapedMessageMembers
    rw [findField_messageFields]
    rcases byFoldedName messageFields key with _ | _ | _ | _ | _ | _ | _ | _ | _ | i <;>
      simp [saveError_eq_none, storeString_err, storeInt_err, storeSlice_attachments_err, ih]

theorem storeMessage_err (j : JSON) (v : Message) :
    (storeMessage j v).2 = none ↔ j.shapedMessage byFoldedName = true := by
  cases j <;> simp [storeMessage, JSON.shapedMessage, storeMessageMembers_err]

/-- One line for the three targets the package decodes into: the decoder
returns an error exactly on the bodies that are malformed for the target. -/
theorem Decode_err_iff_malformed (sb : JSON → GoSlice Nat → GoSlice Nat × Option DecodeError)
    (t : GoType) (shaped : JSON → Bool)
    (h : ∀ j v, (unmarshal sb t j v).2 = none ↔ shaped j = true)
    (body : List Nat) (v : t.pointee) :
    (Decode sb t body v).2 = none ↔ malformed shaped body = false := by
  unfold malformed
  cases hf : firstValue body with
  | some j =>
    rw [Decode_of_firstValue sb t body v j hf, h]
    simp
  | none =>
    unfold firstValue at hf
    unfold Decode
    cases hr : readValue body with
    | error e => simp
    | ok n =>
      rw [hr] at hf
      simp only [] at hf
      simp [hf]

theorem unmarshal_strings_err (sb : JSON → GoSlice Nat → GoSlice Nat × Option DecodeError)
    (j : JSON) (v : GoSlice GoString) :
    (unmarshal sb .ptrSliceString j v).2 = none ↔ j.shapedStrings = true :=
  storeSlice_strings_err j v []

theorem unmarshal_messageItems_err (sb : JSON → GoSlice Nat → GoSlice Nat × Option DecodeError)
    (j : JSON) (v : GoSlice MessageItem) :
    (unmarshal sb .ptrSliceMessageItem j v).2 = none ↔
      j.shapedMessageItems byFoldedName = true :=
  storeSlice_messageItems_err j v []

theorem unmarshal_message_err (sb : JSON → GoSlice Nat → GoSlice Nat × Option DecodeError)
    (j : JSON) (v : Message) :
    (unmarshal sb .ptrMessage j v).2 = none ↔ j.shapedMessage byFoldedName = true :=
  storeMessage_err j v

end Onesecmail

namespace Onesecmail

section DecodeErrors

variable {E κ σ : Type}

/-- Claim C2 as amended: in JSON mode, when the exchange completes with status
200 and the body is decoded by Go's decoder, a malformed body yields an
`ErrNotExpectedJSON` whose `OriginalBody` is the body verbatim and whose `Err`
is the error of the decoder.  Whatever the target, an error `e` of the decoder
is returned as `ErrNotExpectedJSON` with the body and `e`; when no first JSON
value can be read from the body (`readValue` fails with `e`: the body is
empty, is not JSON, or is cut off) the decoder's error is `e` and the target
is left as it was; on the empty body it is `io.EOF`.  For each of the
three targets the package decodes into, the call returns an
`ErrNotExpectedJSON` when the body is malformed for the target (no first value
can be read, or the first value is not of the target's shape, `null` standing
for a missing value and keys being compared with letter case ignored), and a
nil error when it is not. -/
theorem malformed_body_yields_ErrNotExpectedJSON (lib : Lib E)
    (sb : JSON → GoSlice Nat → GoSlice Nat × Option DecodeError) (c : Client E κ σ)
    (ctx : Option κ) (u : GoString) (resp : Response E) (s : σ)
    (h : Completes lib c ctx u resp) (hs : resp.StatusCode = 200)
    (hlib : lib.Decode = Decode sb) :
    (∀ (t : GoType) (v : t.pointee) (e : DecodeError),
        (lib.Decode t resp.Body.buf.elems v).2 = some e →
        c.doReqURL lib ctx u t v false s =
          .returned (some (.ErrNotExpectedJSON resp.Body.buf.elems e),
            (lib.Decode t resp.Body.buf.elems v).1,
            c.verboseLog [.string (str "Fetch result"), .string resp.Body.buf.elems]
              (c.verboseLog [.string (str "fetching"), .string u] s))) ∧
      (∀ (t : GoType) (v : t.pointee) (e : DecodeError),
        readValue resp.Body.buf.elems = .error e →
        c.doReqURL lib ctx u t v false s =
          .returned (some (.ErrNotExpectedJSON resp.Body.buf.elems e), v,
            c.verboseLog [.string (str "Fetch result"), .string resp.Body.buf.elems]
              (c.verboseLog [.string (str "fetching"), .string u] s))) ∧
      (resp.Body.buf.elems = [] → ∀ (t : GoType) (v : t.pointee),
        c.doReqURL lib ctx u t v false s =
          .returned (some (.ErrNotExpectedJSON [] .EOF), v,
            c.verboseLog [.string (str "Fetch result"), .string []]
              (c.verboseLog [.string (str "fetching"), .string u] s))) ∧
      (∀ v : GoSlice GoString, malformed JSON.shapedStrings resp.Body.buf.elems = true →
        ∃ e, (lib.Decode .ptrSliceString resp.Body.buf.elems v).2 = some e ∧
          c.doReqURL lib ctx u .ptrSliceString v false s =
            .returned (some (.ErrNotExpectedJSON resp.Body.buf.elems e),
              (lib.Decode .ptrSliceString resp.Body.buf.elems v).1,
              c.verboseLog [.string (str "Fetch result"), .string resp.Body.buf.elems]
                (c.verboseLog [.string (str "fetching"), .string u] s))) ∧
      (∀ v : GoSlice MessageItem,
        malformed (JSON.shapedMessageItems byFoldedName) resp.Body.buf.elems = true →
        ∃ e, (lib.Decode .ptrSliceMessageItem resp.Body.buf.elems v).2 = some e ∧
          c.doReqURL lib ctx u .ptrSliceMessageItem v false s =
            .returned (some (.ErrNotExpectedJSON resp.Body.buf.elems e),
              (lib.Decode .ptrSliceMessageItem resp.Body.buf.elems v).1,
              c.verboseLog [.string (str "Fetch result"), .string resp.Body.buf.elems]
                (c.verboseLog [.string (str "fetching"), .string u] s))) ∧
      (∀ v : Message, malformed (JSON.shapedMessage byFoldedName) resp.Body.buf.elems = true →
        ∃ e, (lib.Decode .ptrMessage resp.Body.buf.elems v).2 = some e ∧
          c.doReqURL lib ctx u .ptrMessage v false s =
            .returned (some (.ErrNotExpectedJSON resp.Body.buf.elems e),
              (lib.Decode .ptrMessage resp.Body.buf.elems v).1,
              c.verboseLog [.string (str "Fetch result"), .string resp.Body.buf.elems]
                (c.verboseLog [.string (str "fetching"), .string u] s))) ∧
      (∀ v : GoSlice GoString, malformed JSON.shapedStrings resp.Body.buf.elems = false →
        c.doReqURL lib ctx u .ptrSliceString v false s =
          .returned (none, (lib.Decode .ptrSliceString resp.Body.buf.elems v).1,
            c.verboseLog [.string (str "Fetch result"), .string resp.Body.buf.elems]
              (c.verboseLog [.string (str "fetching"), .string u] s))) ∧
      (∀ v : GoSlice MessageItem,
        malformed (JSON.shapedMessageItems byFoldedName) resp.Body.buf.elems = false →
        c.doReqURL lib ctx u .ptrSliceMessageItem v false s =
          .returned (none, (lib.Decode .ptrSliceMessageItem resp.Body.buf.elems v).1,
            c.verboseLog [.string (str "Fetch result"), .string resp.Body.buf.elems]
              (c.verboseLog [.string (str "fetching"), .string u] s))) ∧
      ∀ v : Message, malformed (JSON.shapedMessage byFoldedName) resp.Body.buf.elems = false →
        c.doReqURL lib ctx u .ptrMessage v false s =
          .returned (none, (lib.Decode .ptrMessage resp.Body.buf.elems v).1,
            c.verboseLog [.string (str "Fetch result"), .string resp.Body.buf.elems]
              (c.verboseLog [.string (str "fetching"), .string u] s)) := by
  have herr : ∀ (t : GoType) (v : t.pointee) (e : DecodeError),
      (lib.Decode t resp.Body.buf.elems v).2 = some e →
      c.doReqURL lib ctx u t v false s =
        .returned (some (.ErrNotExpectedJSON resp.Body.buf.elems e),
          (lib.Decode t resp.Body.buf.elems v).1,
          c.verboseLog [.string (str "Fetch result"), .string resp.Body.buf.elems]
            (c.verboseLog [.string (str "fetching"), .string u] s)) := by
    intro t v e he
    rw [doReqURL_of_ok lib c ctx u resp t v s h hs, he]
    rfl
  have hnil : ∀ (t : GoType) (v : t.pointee),
      (lib.Decode t resp.Body.buf.elems v).2 = none →
      c.doReqURL lib ctx u t v false s =
        .returned (none, (lib.Decode t resp.Body.buf.elems v).1,
          c.verboseLog [.string (str "Fetch result"), .string resp.Body.buf.elems]
            (c.verboseLog [.string (str "fetching"), .string u] s)) := by
    intro t v he
    rw [doReqURL_of_ok lib c ctx u resp t v s h hs, he]
    rfl
  have hread : ∀ (t : GoType) (v : t.pointee) (e : DecodeError),
      readValue resp.Body.buf.elems = .error e →
      lib.Decode t resp.Body.buf.elems v = (v, some e) := by
    intro t v e he
    rw [hlib]
    unfold Decode
    rw [he]
  have hmal : ∀ (t : GoType) (shaped : JSON → Bool),
      (∀ j v, (unmarshal sb t j v).2 = none ↔ shaped j = true) → ∀ v : t.pointee,
      malformed shaped resp.Body.buf.elems = true →
      ∃ e, (lib.Decode t resp.Body.buf.elems v).2 = some e := by
    intro t shaped hsh v hm
    cases he : (lib.Decode t resp.Body.buf.elems v).2 with
    | some e => exact ⟨e, rfl⟩
    | none =>
      rw [hlib] at he
      rw [(Decode_err_iff_malformed sb t shaped hsh _ v).1 he] at hm
      cases hm
  have hwell : ∀ (t : GoType) (shaped : JSON → Bool),
      (∀ j v, (unmarshal sb t j v).2 = none ↔ shaped j = true) → ∀ v : t.pointee,
      malformed shaped resp.Body.buf.elems = false →
      (lib.Decode t resp.Body.buf.elems v).2 = none := by
    intro t shaped hsh v hm
    rw [hlib]
    exact (Decode_err_iff_malformed sb t shaped hsh _ v).2 hm
  refine ⟨herr, ?_, ?_, ?_, ?_, ?_, ?_, ?_, ?_⟩
  · intro t v e he
    have hd := hread t v e he
    have := herr t v e (by rw [hd])
    rw [this, hd]
  · intro hb t v
    have he : readValue resp.Body.buf.elems = .error .EOF := by rw [hb]; rfl
    have hd := hread t v .EOF he
    have := herr t v .EOF (by rw [hd])
    rw [this, hd, hb]
  · intro v hm
    obtain ⟨e, he⟩ := hmal .ptrSliceString _ (unmarshal_strings_err sb) v hm
    exact ⟨e, he, herr .ptrSliceString v e he⟩
  · intro v hm
    obtain ⟨e, he⟩ := hmal .ptrSliceMessageItem _ (unmarshal_messageItems_err sb) v hm
    exact ⟨e, he, herr .ptrSliceMessageItem v e he⟩
  · intro v hm
    obtain ⟨e, he⟩ := hmal .ptrMessage _ (unmarshal_message_err sb) v hm
    exact ⟨e, he, herr .ptrMessage v e he⟩
  · intro v hm
    exact hnil .ptrSliceString v (hwell .ptrSliceString _ (unmarshal_strings_err sb) v hm)
  · intro v hm
    exact hnil .ptrSliceMessageItem v (hwell .ptrSliceMessageItem _ (unmarshal_messageItems_err sb) v hm)
  · intro v hm
    exact hnil .ptrMessage v (hwell .ptrMessage _ (unmarshal_message_err sb) v hm)

end DecodeErrors

/-- Witness of C2 as amended: against a mock server answering status 200,
`doReqURL` with a `*[]string` target returns `ErrNotExpectedJSON` with the
body verbatim and the decoder's error: `io.EOF` on the empty body,
`io.ErrUnexpectedEOF` on the cut-off body `["a"`, a `SyntaxError` on the body
`oops`, and an `UnmarshalTypeError` on the body `\x7b"a":1\x7d`, an object
where an array of strings is expected. -/
theorem malformed_body_witness :
    (mockClient 200 []).doReqURL mockLib (some ()) (str "u") .ptrSliceString none false [] =
        .returned (some (.ErrNotExpectedJSON [] .EOF), none,
          [[.string (str "fetching"), .string (str "u")],
            [.string (str "Fetch result"), .string []]]) ∧
      (mockClient 200 (str "[\"a\"")).doReqURL mockLib (some ()) (str "u") .ptrSliceString none false
        [] =
        .returned (some (.ErrNotExpectedJSON (str "[\"a\"") .ErrUnexpectedEOF), none,
          [[.string (str "fetching"), .string (str "u")],
            [.string (str "Fetch result"), .string (str "[\"a\"")]]) ∧
      (mockClient 200 (str "oops")).doReqURL mockLib (some ()) (str "u") .ptrSliceString none false
        [] =
        .returned (some (.ErrNotExpectedJSON (str "oops")
            (.SyntaxError 111 "looking for beginning of value" 1)), none,
          [[.string (str "fetching"), .string (str "u")],
            [.string (str "Fetch result"), .string (str "oops")]]) ∧
      malformed JSON.shapedStrings (str "\x7b\"a\":1\x7d") = true ∧
      (mockClient 200 (str "\x7b\"a\":1\x7d")).doReqURL mockLib (some ()) (str "u")
        .ptrSliceString none false [] =
        .returned (some (.ErrNotExpectedJSON (str "\x7b\"a\":1\x7d")
            (.UnmarshalTypeError (str "object") .sliceString)), none,
          [[.string (str "fetching"), .string (str "u")],
            [.string (str "Fetch result"), .string (str "\x7b\"a\":1\x7d")]]) :=
  ⟨(malformed_body_yields_ErrNotExpectedJSON mockLib (fun _ v => (v, none)) (mockClient 200 [])
      (some ()) (str "u") { StatusCode := 200, Body := { buf := some [], err := none } } []
      ⟨rfl, (), rfl, rfl, rfl⟩ rfl rfl).2.2.1 rfl .ptrSliceString none,
    (malformed_body_yields_ErrNotExpectedJSON mockLib (fun _ v => (v, none))
      (mockClient 200 (str "[\"a\"")) (some ()) (str "u")
      { StatusCode := 200, Body := { buf := some (str "[\"a\""), err := none } } []
      ⟨rfl, (), rfl, rfl, rfl⟩ rfl rfl).2.1 .ptrSliceString none .ErrUnexpectedEOF (by rfl),
    (malformed_body_yields_ErrNotExpectedJSON mockLib (fun _ v => (v, none))
      (mockClient 200 (str "oops")) (some ()) (str "u")
      { StatusCode := 200, Body := { buf := some (str "oops"), err := none } } []
      ⟨rfl, (), rfl, rfl, rfl⟩ rfl rfl).2.1 .ptrSliceString none
      (.SyntaxError 111 "looking for beginning of value" 1) (by rfl),
    by decide!,
    (malformed_body_yields_ErrNotExpectedJSON mockLib (fun _ v => (v, none))
      (mockClient 200 (str "\x7b\"a\":1\x7d")) (some ()) (str "u")
      { StatusCode := 200, Body := { buf := some (str "\x7b\"a\":1\x7d"), err := none } } []
      ⟨rfl, (), rfl, rfl, rfl⟩ rfl rfl).1 .ptrSliceString none
      (.UnmarshalTypeError (str "object") .sliceString) (by decide!)⟩

/-- Counterexample to C2 as stated: the body `["1secmail.com"]oops` is a JSON
value followed by text that is not JSON (the decoder rejects `oops` on its
own), yet `GetDomainList` against a mock server answering status 200 with it
returns the one string and a nil error, not an `ErrNotExpectedJSON`. -/
theorem trailing_text_is_no_error :
    (mockClient 200 (str "[\"1secmail.com\"]oops")).GetDomainList mockLib (some ()) [] =
        .returned ((some [str "1secmail.com"], none),
          [[.string (str "fetching"),
              .string (str "https://www.1secmail.com/api/v1/?action=getDomainList")],
            [.string (str "Fetch result"), .string (str "[\"1secmail.com\"]oops")]]) ∧
      readValue (str "[\"1secmail.com\"]oops") = .ok 16 ∧
      (str "[\"1secmail.com\"]oops").drop 16 = str "oops" ∧
      (Decode (fun _ v => (v, none)) .ptrSliceString (str "oops") none).2 =
        some (.SyntaxError 111 "looking for beginning of value" 1) := by
  refine ⟨by decide!, by rfl, by decide!, by decide!⟩

end Onesecmail


namespace Onesecmail

/-- Witness of C5: with the default base URL, `DownloadAttachment` for login
`demo`, domain `1secmail.com`, id -7 and file `a b/é.txt` runs `doReqURL` in
raw-bytes mode on the URL whose query is
`action=download&domain=1secmail.com&file=a+b%2F%C3%A9.txt&id=-7&login=demo`. -/
theorem request_url_witness :
    (mockClient 200 (str "x")).DownloadAttachment mockLib (some ()) (str "demo")
        (str "1secmail.com") (-7) (str "a b/é.txt") [] =
      deliver none (fun v => v) ((mockClient 200 (str "x")).doReqURL mockLib (some ())
        (str "https://www.1secmail.com/api/v1/?action=download&domain=1secmail.com&file=a+b%2F%C3%A9.txt&id=-7&login=demo")
        .ptrSliceByte none true []) := by
  have h := (operations_request_urls mockLib (mockClient 200 (str "x")) (some ()) []).2.2.2.2.2.1
    (str "demo") (str "1secmail.com") (-7) (str "a b/é.txt")
  have hu : (mockClient 200 (str "x")).urlBase ++ (str "?action=download&domain=" ++
      (QueryEscape (str "1secmail.com") ++ (str "&file=" ++ (QueryEscape (str "a b/é.txt") ++
        (str "&id=" ++ (Itoa (-7) ++ (str "&login=" ++ QueryEscape (str "demo"))))))))
      = str "https://www.1secmail.com/api/v1/?action=download&domain=1secmail.com&file=a+b%2F%C3%A9.txt&id=-7&login=demo" := by
    decide!
  rw [hu] at h
  exact h

end Onesecmail
